import Mathlib

set_option maxHeartbeats 1000000

/-!
Verification development for the movie-graph construction repository.

The loader (`movie_graph_loader.py`) reads a tabular movie dataset, cleans
each record, partitions the records into fixed-size batches and upserts each
batch into a graph store with merge semantics, retrying a failed batch once
after a connection check.  The query facade (`movie_query_interface.py`)
wraps a natural-language question-answering mechanism with initialization
retry and per-question error degradation.

External collaborators (the graph store, `pandas`, the filesystem, the
question-answering chain) are modelled by explicit oracles: a boolean
outcome per store round trip, a `String -> Bool` filesystem predicate, an
`Except`-valued answer function.  The store itself is modelled as explicit
lists of nodes and edges with the merge statements of the upsert query
translated into merge-by-key list operations.
-/

/-- Scalar cell value of the input table as the loader handles it after
`pandas` reads the CSV: a string, an integer, a float (modelled exactly,
as a rational), the float NaN missing-value marker, or Python `None`. -/
inductive PyVal where
  | vstr (s : String)
  | vint (n : Int)
  | vfloat (q : Rat)
  | vnan
  | vnone
deriving DecidableEq

/-- Model of `pd.isna` on the scalar values this pipeline feeds it: true
exactly on the float NaN marker and on `None`. -/
def isna : PyVal → Bool
  | .vnan => true
  | .vnone => true
  | _ => false

/-- Python truthiness of a scalar value (`if value:`): the empty string and
zero and `None` are falsy; NaN is a nonzero float and hence truthy. -/
def pyTruthy : PyVal → Bool
  | .vstr s => decide (s ≠ "")
  | .vint n => decide (n ≠ 0)
  | .vfloat q => decide (q ≠ 0)
  | .vnan => true
  | .vnone => false

/-- Model of Python `str` on the values reaching the genre filter.  The
filter only ever tests whether the rendering trims to the empty string, and
every non-string rendering below is a non-empty non-whitespace string, as in
Python. -/
def pyStr : PyVal → String
  | .vstr s => s
  | .vint n => toString n
  | .vfloat q => toString q
  | .vnan => "nan"
  | .vnone => "None"

/-- A genre cell as the loader may see it: either a scalar (string, missing
marker, number) or a native Python list of scalars. -/
inductive GVal where
  | scalar (v : PyVal)
  | list (xs : List PyVal)
deriving DecidableEq

/-- Model of the cleaning loop's `pd.isna` test on a genre cell, restricted
to the inputs on which that test returns a value: scalars, and native lists
of at most one element (whose array truth value is unambiguous).  On a
native list of two or more elements the source's `if pd.isna(value)` raises
`ValueError`; that failure mode is modelled by `isnaGE`, and this
non-raising restriction is what `cleanRecord` and the store semantics built
on it assume. -/
def isnaG : GVal → Bool
  | .scalar v => isna v
  | .list _ => false

/-- ASCII whitespace recognised by the string helpers. -/
def isWsChar (c : Char) : Bool :=
  c == ' ' || c == '\t' || c == '\n' || c == '\r'

/-- Drop leading whitespace characters. -/
def skipWs : List Char → List Char
  | [] => []
  | c :: cs => if isWsChar c then skipWs cs else c :: cs

/-- The double-quote character. -/
def quoteC : Char := Char.ofNat 34

/-- The apostrophe character. -/
def apostC : Char := Char.ofNat 39

/-- Replace every occurrence of character `c` by `d`; models Python
`str.replace` for a single-character pattern. -/
def replaceChar (c d : Char) (s : List Char) : List Char :=
  s.map (fun x => if x == c then d else x)

/-- Split a character list at every comma; models Python `str.split(',')`,
including the singleton-of-empty result on empty input. -/
def splitComma : List Char → List (List Char)
  | [] => [[]]
  | c :: cs =>
    let r := splitComma cs
    if c == ',' then [] :: r
    else
      match r with
      | h :: t => (c :: h) :: t
      | [] => [[c]]

/-- Strip leading and trailing whitespace; models Python `str.strip()` on
the ASCII whitespace this data contains. -/
def trimChars (s : List Char) : List Char :=
  ((s.dropWhile isWsChar).reverse.dropWhile isWsChar).reverse

/-- Result of `json.loads` as the genre pipeline consumes it: a JSON array
(whose elements the code then iterates), a scalar that parses but cannot be
iterated, or a decode error. -/
inductive JsonOut where
  | arr (xs : List PyVal)
  | scalar
  | decodeFail
deriving DecidableEq

/-- Parse the items of a JSON array of strings, after the opening bracket:
returns the parsed elements and the characters remaining after the closing
bracket.  Escape sequences are rejected; the genre data contains none. -/
def parseItems : Nat → List Char → Option (List PyVal × List Char)
  | 0, _ => none
  | fuel + 1, cs =>
    match skipWs cs with
    | [] => none
    | c :: rest =>
      if c == quoteC then
        match parseStrChars rest with
        | some (sc, rest2) =>
          (match skipWs rest2 with
           | ',' :: rest3 =>
             (match parseItems fuel rest3 with
              | some (xs, rem) => some (PyVal.vstr (String.mk sc) :: xs, rem)
              | none => none)
           | ']' :: rest3 => some ([PyVal.vstr (String.mk sc)], rest3)
           | _ => none)
        | none => none
      else none
where
  /-- Consume a string body up to the closing quote. -/
  parseStrChars : List Char → Option (List Char × List Char)
    | [] => none
    | c :: cs =>
      if c == quoteC then some ([], cs)
      else if c == '\\' then none
      else
        match parseStrChars cs with
        | some (sc, rest) => some (c :: sc, rest)
        | none => none

/-- Model of Python `json.loads` restricted to the shapes the genre field
can take: a JSON array of escape-free strings parses to `.arr`; a bare
non-negative integer literal parses but is not iterable (`.scalar`); every
other input is treated as a decode error, which is what `json.loads` raises
on the comma-separated and free-text genre encodings. -/
def jsonLoadsChars (cs0 : List Char) : JsonOut :=
  match skipWs cs0 with
  | [] => .decodeFail
  | c :: rest =>
    if c == '[' then
      match skipWs rest with
      | ']' :: rem => if (skipWs rem).isEmpty then .arr [] else .decodeFail
      | _ =>
        match parseItems (rest.length + 1) rest with
        | some (xs, rem) => if (skipWs rem).isEmpty then .arr xs else .decodeFail
        | none => .decodeFail
    else if c.isDigit then
      if (skipWs ((c :: rest).dropWhile Char.isDigit)).isEmpty then .scalar
      else .decodeFail
    else .decodeFail

/-- Model of the genre-normalization `try` block of `_process_movie_batch`:
`.ok` is the list the Python code binds to `genres`; `.error` marks the
paths on which the code raises inside the `try` (iterating a non-iterable
value), which the surrounding `except` turns into an empty genre list with
a warning.  A string cell is JSON-decoded after replacing apostrophes by
double quotes, falling back to comma-splitting with per-item strip on a
decode error; an empty or falsy cell yields the empty list; a native list
is taken as is. -/
def genresCore : GVal → Except String (List PyVal)
  | .scalar (.vstr s) =>
    if s = "" then .ok []
    else
      match jsonLoadsChars (replaceChar apostC quoteC s.toList) with
      | .arr xs => .ok xs
      | .scalar => .error "genres value is not iterable"
      | .decodeFail =>
        .ok ((splitComma s.toList).map (fun cs => PyVal.vstr (String.mk (trimChars cs))))
  | .scalar v => if pyTruthy v then .error "genres value is not iterable" else .ok []
  | .list xs => if xs.isEmpty then .ok [] else .ok xs

/-- The per-element genre filter
`[g for g in genres if g and not pd.isna(g) and str(g).strip()]`. -/
def keepGenre (g : PyVal) : Bool :=
  pyTruthy g && !(isna g) && !(trimChars (pyStr g).toList).isEmpty

/-- Genre normalization including the `except` fallback: malformed cells
yield the empty list instead of failing the record. -/
def normalizeGenres (v : GVal) : List PyVal :=
  match genresCore v with
  | .ok gs => gs.filter keepGenre
  | .error _ => []

/-- NaN-to-None substitution applied to every scalar cell of a record. -/
def cleanVal (v : PyVal) : PyVal :=
  if isna v then .vnone else v

/-- NaN-to-None substitution on the genre cell. -/
def cleanGVal (v : GVal) : GVal :=
  if isnaG v then .scalar .vnone else v

/-- The full genre pipeline of `_process_movie_batch` for one cell:
missing-value substitution followed by normalization and filtering. -/
def genresPipeline (v : GVal) : List PyVal :=
  normalizeGenres (cleanGVal v)

/-- One input row, with the columns the upsert query reads. -/
structure RawRecord where
  id : PyVal
  title : PyVal
  overview : PyVal
  release_date : PyVal
  vote_average : PyVal
  vote_count : PyVal
  popularity : PyVal
  genres : GVal
deriving DecidableEq

/-- A record after the cleaning loop of `_process_movie_batch`: every scalar
has NaN replaced by the absent marker and the genre cell is a normalized
list. -/
structure CleanRecord where
  id : PyVal
  title : PyVal
  overview : PyVal
  release_date : PyVal
  vote_average : PyVal
  vote_count : PyVal
  popularity : PyVal
  genres : List PyVal
deriving DecidableEq

/-- The record-cleaning step of `_process_movie_batch`. -/
def cleanRecord (r : RawRecord) : CleanRecord :=
  { id := cleanVal r.id
    title := cleanVal r.title
    overview := cleanVal r.overview
    release_date := cleanVal r.release_date
    vote_average := cleanVal r.vote_average
    vote_count := cleanVal r.vote_count
    popularity := cleanVal r.popularity
    genres := genresPipeline r.genres }


/-- The scalar attributes the upsert query `SET`s on a Movie node, with the
`CASE WHEN ... IS NOT NULL` defaults applied: an absent (null) vote average,
vote count or popularity is stored as `0.0`, `0`, `0.0` respectively; the
attribute is always present on the node. -/
structure MovieProps where
  title : PyVal
  overview : PyVal
  release_date : PyVal
  vote_average : PyVal
  vote_count : PyVal
  popularity : PyVal
deriving DecidableEq

/-- Attribute map the query stores for one cleaned record. -/
def propsOf (r : CleanRecord) : MovieProps :=
  { title := r.title
    overview := r.overview
    release_date := r.release_date
    vote_average := if r.vote_average = .vnone then .vfloat 0 else r.vote_average
    vote_count := if r.vote_count = .vnone then .vint 0 else r.vote_count
    popularity := if r.popularity = .vnone then .vfloat 0 else r.popularity }

/-- The graph store: Movie nodes as an id-keyed association list (the
uniqueness constraint on `Movie.id` makes the key identifying), Genre nodes
as a list of names, and `HAS_GENRE` edges as a list of
(movie id, genre name) pairs. -/
@[ext]
structure GraphState where
  movies : List (PyVal × MovieProps)
  genreNodes : List PyVal
  hasGenre : List (PyVal × PyVal)
deriving DecidableEq

/-- The store with no nodes and no edges. -/
def emptyStore : GraphState := ⟨[], [], []⟩

/-- `MERGE (m:Movie {id: k}) SET m.<attrs>` under the uniqueness constraint,
for the non-null keys the query successfully processes: update the single
entry with key `k` in place if present, otherwise append a new node.  Cypher
raises on `MERGE` with a null key instead of storing; that failure mode is
modelled at batch level by `process_movie_batchE`, which raises before any
record of the batch is stored. -/
def upsertMovie (m : List (PyVal × MovieProps)) (k : PyVal) (p : MovieProps) :
    List (PyVal × MovieProps) :=
  if k ∈ m.map Prod.fst then m.map (fun e => if e.1 = k then (k, p) else e)
  else m ++ [(k, p)]

/-- `MERGE` on a keyless element collection (Genre nodes, `HAS_GENRE`
edges): add the element only if it is not already present. -/
def mergeIn {α : Type} [DecidableEq α] (xs : List α) (a : α) : List α :=
  if a ∈ xs then xs else xs ++ [a]

/-- The `WHERE genre IS NOT NULL` filter of the upsert query. -/
def nonNullGenres (r : CleanRecord) : List PyVal :=
  r.genres.filter (fun g => decide (g ≠ PyVal.vnone))

/-- Effect of one `UNWIND` iteration of the upsert query for one record:
merge the Movie node and set its attributes, then merge a Genre node and a
`HAS_GENRE` edge for each non-null genre. -/
def applyRecord (g : GraphState) (r : CleanRecord) : GraphState :=
  { movies := upsertMovie g.movies r.id (propsOf r)
    genreNodes := (nonNullGenres r).foldl mergeIn g.genreNodes
    hasGenre := ((nonNullGenres r).map (fun n => (r.id, n))).foldl mergeIn g.hasGenre }

/-- `_process_movie_batch`: clean every record of the batch, then run the
single bulk upsert query over the cleaned records in order. -/
def process_movie_batch (g : GraphState) (batch : List RawRecord) : GraphState :=
  (batch.map cleanRecord).foldl applyRecord g

/-- The batch partition `range(0, len(df), batch_size)` with
`df.iloc[i:i+batch_size]` slices: contiguous chunks of at most `bs`
records. -/
def sliceBatches {α : Type} (bs : Nat) (recs : List α) : List (List α) :=
  (List.range ((recs.length + bs - 1) / bs)).map (fun k => (recs.drop (k * bs)).take bs)

/-- Observable events of one `load_movies` run, in order: the idempotent
schema bootstrap, per-batch application and progress logging, the proactive
checkpoint connection check, and the error/retry path (`errEnsure` is the
`_ensure_connection` call made from the `except` handler: a liveness probe
followed by a reconnect if the probe fails). -/
inductive Ev where
  | schemaBootstrap
  | batchApplied (idx : Nat)
  | progressLogged (total : Nat)
  | checkpointEnsure
  | errorLogged (idx : Nat)
  | errEnsure (idx : Nat)
  | retryApplied (idx : Nat)
  | retrySkipped (idx : Nat)
  | checkpointEnsureRaised
  | errEnsureRaised (idx : Nat)
deriving DecidableEq

/-- The batch loop of `load_movies` over the remaining batches.  `env idx`
is the store oracle for batch number `idx`: the first component tells
whether the first bulk-upsert attempt succeeds, the second whether the
single retry issued from the `except` handler succeeds (consulted only
when the first attempt fails).  A successful first attempt advances the
cumulative counter, logs progress, and runs the proactive connection check
when the counter is an exact multiple of 50 000; a failed first attempt
logs the error, runs `_ensure_connection`, and retries the same batch
exactly once, skipping the batch (`continue`) if the retry also fails.
The fixed pacing sleep between batches is not represented in the trace.
This function is the restriction of the full model `loadGoE` to runs in
which every `_ensure_connection` call made by the loop returns:
`loadGoE_recovery_ok` proves the two agree on such runs, and `loadGoE`
models the propagation of a raising recovery call (the source leaves the
call in the `except` handler unguarded); the connection-check internals are
modelled separately by `ensure_connection`. -/
def loadGo (env : Nat → Bool × Bool) :
    Nat → Nat → GraphState → List Ev → List (List RawRecord) →
    GraphState × Nat × List Ev
  | _, total, g, evts, [] => (g, total, evts)
  | idx, total, g, evts, b :: rest =>
    if (env idx).1 then
      loadGo env (idx + 1) (total + b.length) (process_movie_batch g b)
        (evts ++ [Ev.batchApplied idx, Ev.progressLogged (total + b.length)]
          ++ (if (total + b.length) % 50000 = 0 then [Ev.checkpointEnsure] else []))
        rest
    else
      if (env idx).2 then
        loadGo env (idx + 1) total (process_movie_batch g b)
          (evts ++ [Ev.errorLogged idx, Ev.errEnsure idx, Ev.retryApplied idx]) rest
      else
        loadGo env (idx + 1) total g
          (evts ++ [Ev.errorLogged idx, Ev.errEnsure idx, Ev.retrySkipped idx]) rest

/-- `load_movies`: fail fast when the dataset path does not exist (store,
counter and trace untouched); otherwise bootstrap the schema and process the
record sequence in batches of 40 000.  Returns the raised error (if any),
the final store, the cumulative processed counter and the event trace. -/
def load_movies (pathExists : String → Bool) (csv_path : String)
    (recs : List RawRecord) (env : Nat → Bool × Bool) (g : GraphState) :
    Option String × GraphState × Nat × List Ev :=
  if pathExists csv_path then
    (none, loadGo env 0 0 g [Ev.schemaBootstrap] (sliceBatches 40000 recs))
  else
    (some ("CSV file not found: " ++ csv_path), g, 0, [])

/-- C7: when the dataset path does not exist, `load_movies` raises the
dataset-not-found error immediately — the store is unchanged and the trace
is empty, so no dataset read, no schema bootstrap and no upsert happened —
while any run on an existing path swallows all per-batch store errors and
returns without raising. -/
theorem c7_missing_dataset_fails_fast :
    (∀ (path : String) (recs : List RawRecord) (env : Nat → Bool × Bool) (g : GraphState),
      load_movies (fun _ => false) path recs env g
        = (some ("CSV file not found: " ++ path), g, 0, []))
    ∧ (∀ (path : String) (recs : List RawRecord) (env : Nat → Bool × Bool) (g : GraphState),
      (load_movies (fun _ => true) path recs env g).1 = none) := by
  constructor
  · intro path recs env g
    simp [load_movies]
  · intro path recs env g
    simp [load_movies]

/-- A merged Movie node is present with exactly the attributes that were
set: `MERGE (m:Movie {id: k}) SET ...` leaves an entry `(k, p)` in the
store. -/
theorem mem_upsertMovie_self (m : List (PyVal × MovieProps)) (k : PyVal) (p : MovieProps) :
    (k, p) ∈ upsertMovie m k p := by
  unfold upsertMovie
  by_cases h : k ∈ m.map Prod.fst
  · simp only [if_pos h]
    rcases List.mem_map.mp h with ⟨e, he, hk⟩
    have he' : (fun e => if e.1 = k then (k, p) else e) e = (k, p) := by simp [hk]
    exact List.mem_map.mpr ⟨e, he, he'⟩
  · simp [if_neg h]

/-- The fixed panel of five analytical questions of `get_movie_insights`. -/
def insightQuestions : List String :=
  ["What are the top 5 highest-rated movies with at least 1000 votes?",
   "Which genres have the most movies?",
   "What are the most popular movies released in 2023?",
   "What are the average ratings for each genre?",
   "What are some hidden gems (high rating but low vote count)?"]

/-- `get_movie_insights`: ask each canned question independently through the
question-answering chain `qa`; a raised error is converted to the string
`"Error: " ++ message` in that question's slot, and the loop continues with
the remaining questions.  The returned insertion-ordered mapping is modelled
as an association list keyed by the (pairwise distinct) questions. -/
def get_movie_insights (qa : String → Except String String) : List (String × String) :=
  insightQuestions.map (fun q =>
    (q, match qa q with
        | .ok a => a
        | .error e => "Error: " ++ e))

/-- C5: `get_movie_insights` always returns a slot for all five canned
questions in order; a question on which the chain raises gets the error
string beginning with `"Error:"` while every other question is still
answered and returned. -/
theorem c5_insights_degradation (qa : String → Except String String) :
    ((get_movie_insights qa).map Prod.fst = insightQuestions)
    ∧ (∀ q e, q ∈ insightQuestions → qa q = .error e →
        (q, "Error: " ++ e) ∈ get_movie_insights qa)
    ∧ (∀ q a, q ∈ insightQuestions → qa q = .ok a →
        (q, a) ∈ get_movie_insights qa) := by
  refine ⟨?_, ?_, ?_⟩
  · have hf : (Prod.fst ∘ fun q =>
        ((q, match qa q with
             | .ok a => a
             | .error e => "Error: " ++ e) : String × String)) = id := by
      funext q
      rfl
    simp only [get_movie_insights, List.map_map]
    rw [hf, List.map_id]
  · intro q e hq hqa
    have h : (fun q =>
        (q, match qa q with
            | .ok a => a
            | .error e => "Error: " ++ e)) q = (q, "Error: " ++ e) := by
      simp [hqa]
    exact h ▸ List.mem_map_of_mem _ hq
  · intro q a hq hqa
    have h : (fun q =>
        (q, match qa q with
            | .ok a => a
            | .error e => "Error: " ++ e)) q = (q, a) := by
      simp [hqa]
    exact h ▸ List.mem_map_of_mem _ hq

/-- Witness for `c5_insights_degradation`: with a chain that raises on the
second question only, the second slot carries the error string and the
fourth is still answered. -/
theorem c5_insights_degradation_witness :
    ("Which genres have the most movies?", "Error: boom")
      ∈ get_movie_insights (fun q =>
          if q = "Which genres have the most movies?" then Except.error "boom"
          else Except.ok "fine")
    ∧ ("What are the average ratings for each genre?", "fine")
      ∈ get_movie_insights (fun q =>
          if q = "Which genres have the most movies?" then Except.error "boom"
          else Except.ok "fine") := by
  refine ⟨(c5_insights_degradation _).2.1 _ "boom" (by decide) (by rfl),
    (c5_insights_degradation _).2.2 _ "fine" (by decide) (by rfl)⟩

/-- The initialization retry loop of `_initialize_connections`, counted by
remaining attempts (`fuel`), starting at attempt index `a`.  `att a` is the
outcome of attempt `a` (constructing the graph handle and probing it);
on failure of the last allowed attempt the exception is re-raised, otherwise
the loop sleeps 2 time units and retries.  Returns the successful attempt
index or the propagated error, plus the list of back-off sleeps. -/
def initGo (att : Nat → Except String Unit) : Nat → Nat → Except String Nat × List Nat
  | 0, _ => (.error "retries exhausted", [])
  | fuel + 1, a =>
    match att a with
    | .ok _ => (.ok a, [])
    | .error e =>
      if fuel = 0 then (.error e, [])
      else ((initGo att fuel (a + 1)).1, 2 :: (initGo att fuel (a + 1)).2)

/-- `_initialize_connections` with the source's `max_retries = 3`. -/
def initialize_connections (att : Nat → Except String Unit) :
    Except String Nat × List Nat :=
  initGo att 3 0

/-- C8: query-facade initialization attempts the graph connection up to 3
times, sleeping a fixed 2 time units after each failed attempt that is
followed by a retry; after the third failed attempt the third attempt's
failure is re-raised to the constructor's caller (no sleep, no degraded
mode). -/
theorem c8_init_retry (att : Nat → Except String Unit) :
    (att 0 = .ok () → initialize_connections att = (.ok 0, []))
    ∧ (∀ e, att 0 = .error e → att 1 = .ok () →
        initialize_connections att = (.ok 1, [2]))
    ∧ (∀ e f, att 0 = .error e → att 1 = .error f → att 2 = .ok () →
        initialize_connections att = (.ok 2, [2, 2]))
    ∧ (∀ e f h, att 0 = .error e → att 1 = .error f → att 2 = .error h →
        initialize_connections att = (.error h, [2, 2])) := by
  refine ⟨fun h0 => ?_, fun e h0 h1 => ?_, fun e f h0 h1 h2 => ?_, fun e f h h0 h1 h2 => ?_⟩
  · simp [initialize_connections, initGo, h0]
  · simp [initialize_connections, initGo, h0, h1]
  · simp [initialize_connections, initGo, h0, h1, h2]
  · simp [initialize_connections, initGo, h0, h1, h2]

/-- Witness for `c8_init_retry`: all three attempts fail, the third error is
re-raised after exactly two 2-unit sleeps. -/
theorem c8_init_retry_witness :
    initialize_connections (fun _ => Except.error "down") = (.error "down", [2, 2]) :=
  (c8_init_retry (fun _ => Except.error "down")).2.2.2 "down" "down" "down" rfl rfl rfl

/-- The connection credentials stored by the loader at construction. -/
structure Creds where
  uri : String
  username : String
  password : String
deriving DecidableEq

/-- Observable events of one `_ensure_connection` call. -/
inductive ConnEv where
  | probeOk
  | probeFailed
  | closeCalled
  | closeRaised
  | slept (n : Nat)
  | openedWith (c : Creds)
deriving DecidableEq

/-- `_ensure_connection` of the loader: run the trivial liveness probe; on
success return with the handle unchanged.  On probe failure, call
`self.driver.close()` — the call is not guarded, so an error it raises
propagates — then sleep 1 time unit and open a fresh handle with the stored
credentials; a failure of the fresh open also propagates (the reconnect is
not retried).  Oracles: `probeOk`, `closeOk`, `openOk` are the outcomes of
the three store round trips; `driver` is the current handle and `fresh` the
handle a successful open would produce.  Returns the propagated error (if
any), the resulting handle, and the event trace. -/
def ensure_connection (creds : Creds) (probeOk closeOk openOk : Bool)
    (fresh driver : Nat) : Option String × Nat × List ConnEv :=
  if probeOk then (none, driver, [ConnEv.probeOk])
  else if closeOk = false then
    (some "driver close failed", driver,
      [ConnEv.probeFailed, ConnEv.closeCalled, ConnEv.closeRaised])
  else if openOk = false then
    (some "driver open failed", driver,
      [ConnEv.probeFailed, ConnEv.closeCalled, ConnEv.slept 1])
  else
    (none, fresh,
      [ConnEv.probeFailed, ConnEv.closeCalled, ConnEv.slept 1, ConnEv.openedWith creds])

/-- Counterexample to C9 as stated: the claim says an error raised by
`close` is ignored (best-effort close), but `self.driver.close()` sits
unguarded inside the `except` handler, so when the probe fails and close
raises, `_ensure_connection` propagates the close error to its caller
instead of continuing with the reconnect. -/
theorem c9_counterexample :
    (ensure_connection ⟨"bolt://host", "neo4j", "pw"⟩ false false true 7 3).1
        = some "driver close failed"
    ∧ (ensure_connection ⟨"bolt://host", "neo4j", "pw"⟩ false false true 7 3).1 ≠ none
    ∧ (ensure_connection ⟨"bolt://host", "neo4j", "pw"⟩ false false true 7 3).2.2
        = [ConnEv.probeFailed, ConnEv.closeCalled, ConnEv.closeRaised] := by
  decide

/-- C9 (amended): when the liveness probe fails, reconnect closes the
existing handle — an error raised by close propagates to the caller rather
than being ignored — then waits a fixed 1-time-unit backoff and opens a
fresh handle with the same stored credentials; the reconnect itself is not
retried, so a failure of the fresh open propagates; and when the probe
succeeds the existing handle is left unchanged. -/
theorem c9_reconnect_amended (creds : Creds) (probeOk closeOk openOk : Bool)
    (fresh driver : Nat) :
    (probeOk = true →
      ensure_connection creds probeOk closeOk openOk fresh driver
        = (none, driver, [ConnEv.probeOk]))
    ∧ (probeOk = false → closeOk = true → openOk = true →
      ensure_connection creds probeOk closeOk openOk fresh driver
        = (none, fresh, [ConnEv.probeFailed, ConnEv.closeCalled, ConnEv.slept 1,
            ConnEv.openedWith creds]))
    ∧ (probeOk = false → closeOk = true → openOk = false →
      ensure_connection creds probeOk closeOk openOk fresh driver
        = (some "driver open failed", driver,
            [ConnEv.probeFailed, ConnEv.closeCalled, ConnEv.slept 1]))
    ∧ (probeOk = false → closeOk = false →
      ensure_connection creds probeOk closeOk openOk fresh driver
        = (some "driver close failed", driver,
            [ConnEv.probeFailed, ConnEv.closeCalled, ConnEv.closeRaised])) := by
  refine ⟨fun h => ?_, fun h hc ho => ?_, fun h hc ho => ?_, fun h hc => ?_⟩
  · simp [ensure_connection, h]
  · simp [ensure_connection, h, hc, ho]
  · simp [ensure_connection, h, hc, ho]
  · simp [ensure_connection, h, hc]

/-- Witness for `c9_reconnect_amended`: probe failure with clean close and
open swaps in the fresh handle after a 1-unit sleep. -/
theorem c9_reconnect_amended_witness :
    ensure_connection ⟨"bolt://host", "neo4j", "pw"⟩ false true true 7 3
      = (none, 7, [ConnEv.probeFailed, ConnEv.closeCalled, ConnEv.slept 1,
          ConnEv.openedWith ⟨"bolt://host", "neo4j", "pw"⟩]) :=
  (c9_reconnect_amended ⟨"bolt://host", "neo4j", "pw"⟩ false true true 7 3).2.1 rfl rfl rfl

/-- A batch ends up applied to the store iff its first attempt or its single
retry succeeds. -/
def appliedB (env : Nat → Bool × Bool) (idx : Nat) : Bool :=
  (env idx).1 || (env idx).2

/-- Reference store semantics of the batch loop: apply each batch exactly
once when `appliedB` holds for it, skip it otherwise. -/
def applyChunks (env : Nat → Bool × Bool) :
    Nat → GraphState → List (List RawRecord) → GraphState
  | _, g, [] => g
  | idx, g, b :: rest =>
    applyChunks env (idx + 1) (if appliedB env idx then process_movie_batch g b else g) rest

/-- The store component of the batch loop follows the reference semantics:
each batch is applied exactly once if either attempt succeeds — so a batch
recovered by its retry is applied without duplication, and a batch whose
retry also fails is permanently skipped. -/
theorem loadGo_graph (env : Nat → Bool × Bool) (bs : List (List RawRecord)) :
    ∀ (idx total : Nat) (g : GraphState) (evts : List Ev),
      (loadGo env idx total g evts bs).1 = applyChunks env idx g bs := by
  induction bs with
  | nil => intro idx total g evts; rfl
  | cons b rest ih =>
    intro idx total g evts
    by_cases h1 : (env idx).1
    · simp [loadGo, h1, applyChunks, appliedB, ih]
    · by_cases h2 : (env idx).2
      · simp [loadGo, h1, h2, applyChunks, appliedB, ih]
      · simp [loadGo, h1, h2, applyChunks, appliedB, ih]

/-- If two oracles agree on which batches end up applied, the reference
semantics produces the same store. -/
theorem applyChunks_congr (env1 env2 : Nat → Bool × Bool)
    (h : ∀ k, appliedB env1 k = appliedB env2 k) (bs : List (List RawRecord)) :
    ∀ (idx : Nat) (g : GraphState), applyChunks env1 idx g bs = applyChunks env2 idx g bs := by
  induction bs with
  | nil => intro idx g; rfl
  | cons b rest ih =>
    intro idx g
    simp only [applyChunks, h idx, ih]

/-- The counter value the batch loop accumulates: the summed length of the
batches whose first attempt succeeded — retried batches contribute
nothing. -/
def expectedTotal (env : Nat → Bool × Bool) : Nat → List (List RawRecord) → Nat
  | _, [] => 0
  | idx, b :: rest =>
    (if (env idx).1 then b.length else 0) + expectedTotal env (idx + 1) rest

/-- The cumulative counter of the batch loop counts exactly the
first-attempt-successful batches. -/
theorem loadGo_total (env : Nat → Bool × Bool) (bs : List (List RawRecord)) :
    ∀ (idx total : Nat) (g : GraphState) (evts : List Ev),
      (loadGo env idx total g evts bs).2.1 = total + expectedTotal env idx bs := by
  induction bs with
  | nil => intro idx total g evts; simp [loadGo, expectedTotal]
  | cons b rest ih =>
    intro idx total g evts
    by_cases h1 : (env idx).1
    · simp only [loadGo, h1, if_true, expectedTotal, ih]
      omega
    · by_cases h2 : (env idx).2
      · simp only [loadGo, h1, h2, Bool.false_eq_true, if_false, if_true, expectedTotal, ih]
        omega
      · simp only [loadGo, h1, h2, Bool.false_eq_true, if_false, expectedTotal, ih]
        omega

/-- `expectedTotal` depends only on the first-attempt outcomes. -/
theorem expectedTotal_congr (env1 env2 : Nat → Bool × Bool)
    (h : ∀ k, (env1 k).1 = (env2 k).1) (bs : List (List RawRecord)) :
    ∀ idx, expectedTotal env1 idx bs = expectedTotal env2 idx bs := by
  induction bs with
  | nil => intro idx; rfl
  | cons b rest ih => intro idx; simp only [expectedTotal, h idx, ih]

/-- The batch loop only ever appends to the event trace. -/
theorem loadGo_events_ext (env : Nat → Bool × Bool) (bs : List (List RawRecord)) :
    ∀ (idx total : Nat) (g : GraphState) (evts : List Ev),
      ∃ tl, (loadGo env idx total g evts bs).2.2 = evts ++ tl := by
  induction bs with
  | nil => intro idx total g evts; exact ⟨[], by simp [loadGo]⟩
  | cons b rest ih =>
    intro idx total g evts
    by_cases h1 : (env idx).1
    · simp only [loadGo, h1, if_true]
      obtain ⟨tl, htl⟩ := ih (idx + 1) (total + b.length) (process_movie_batch g b)
        (evts ++ [Ev.batchApplied idx, Ev.progressLogged (total + b.length)]
          ++ (if (total + b.length) % 50000 = 0 then [Ev.checkpointEnsure] else []))
      refine ⟨[Ev.batchApplied idx, Ev.progressLogged (total + b.length)]
          ++ (if (total + b.length) % 50000 = 0 then [Ev.checkpointEnsure] else []) ++ tl, ?_⟩
      rw [htl]
      simp
    · by_cases h2 : (env idx).2
      · simp only [loadGo, h1, h2, Bool.false_eq_true, if_false, if_true]
        obtain ⟨tl, htl⟩ := ih (idx + 1) total (process_movie_batch g b)
          (evts ++ [Ev.errorLogged idx, Ev.errEnsure idx, Ev.retryApplied idx])
        refine ⟨[Ev.errorLogged idx, Ev.errEnsure idx, Ev.retryApplied idx] ++ tl, ?_⟩
        rw [htl]
        simp
      · simp only [loadGo, h1, h2, Bool.false_eq_true, if_false]
        obtain ⟨tl, htl⟩ := ih (idx + 1) total g
          (evts ++ [Ev.errorLogged idx, Ev.errEnsure idx, Ev.retrySkipped idx])
        refine ⟨[Ev.errorLogged idx, Ev.errEnsure idx, Ev.retrySkipped idx] ++ tl, ?_⟩
        rw [htl]
        simp

/-- The retry event the `except` handler of batch `j` emits: application on
retry success, permanent skip on retry failure. -/
def retryEv (env : Nat → Bool × Bool) (j : Nat) : Ev :=
  if (env j).2 then Ev.retryApplied j else Ev.retrySkipped j

/-- Every batch whose first attempt fails produces the consecutive trace
block error-logged, `_ensure_connection`, one retry outcome. -/
theorem loadGo_retry_block (env : Nat → Bool × Bool) (j : Nat) (bs : List (List RawRecord)) :
    ∀ (p idx total : Nat) (g : GraphState) (evts : List Ev),
      idx + p = j → p < bs.length → (env j).1 = false →
      ∃ E1 E2, (loadGo env idx total g evts bs).2.2
        = E1 ++ [Ev.errorLogged j, Ev.errEnsure j, retryEv env j] ++ E2 := by
  induction bs with
  | nil =>
    intro p idx total g evts _ hp _
    exact absurd hp (by simp)
  | cons b rest ih =>
    intro p idx total g evts hpj hp hf
    match p, hpj with
    | 0, hpj =>
      have hij : idx = j := by omega
      subst hij
      simp only [loadGo, hf, Bool.false_eq_true, if_false]
      by_cases h2 : (env idx).2
      · simp only [h2, if_true]
        obtain ⟨tl, htl⟩ := loadGo_events_ext env rest (idx + 1) total
          (process_movie_batch g b)
          (evts ++ [Ev.errorLogged idx, Ev.errEnsure idx, Ev.retryApplied idx])
        refine ⟨evts, tl, ?_⟩
        rw [htl]
        simp [retryEv, h2]
      · simp only [h2, Bool.false_eq_true, if_false]
        obtain ⟨tl, htl⟩ := loadGo_events_ext env rest (idx + 1) total g
          (evts ++ [Ev.errorLogged idx, Ev.errEnsure idx, Ev.retrySkipped idx])
        refine ⟨evts, tl, ?_⟩
        rw [htl]
        simp [retryEv, h2]
    | p' + 1, hpj =>
      have hp' : p' < rest.length := by simpa using hp
      have hpj' : (idx + 1) + p' = j := by omega
      by_cases h1 : (env idx).1
      · simp only [loadGo, h1, if_true]
        exact ih p' (idx + 1) _ _ _ hpj' hp' hf
      · by_cases h2 : (env idx).2
        · simp only [loadGo, h1, h2, Bool.false_eq_true, if_false, if_true]
          exact ih p' (idx + 1) _ _ _ hpj' hp' hf
        · simp only [loadGo, h1, h2, Bool.false_eq_true, if_false]
          exact ih p' (idx + 1) _ _ _ hpj' hp' hf

/-- Recognizer of a retry event (either outcome) for batch `j`. -/
def isRetryEv (j : Nat) : Ev → Bool
  | .retryApplied i => i == j
  | .retrySkipped i => i == j
  | _ => false

/-- Number of batch-`j` retry events the batch loop emits over `bs`. -/
def retryCountSpec (env : Nat → Bool × Bool) (j : Nat) : Nat → List (List RawRecord) → Nat
  | _, [] => 0
  | idx, _ :: rest =>
    (if idx = j ∧ (env idx).1 = false then 1 else 0) + retryCountSpec env j (idx + 1) rest

/-- The batch loop emits exactly `retryCountSpec` retry events for batch
`j`. -/
theorem loadGo_retry_count (env : Nat → Bool × Bool) (j : Nat) (bs : List (List RawRecord)) :
    ∀ (idx total : Nat) (g : GraphState) (evts : List Ev),
      ((loadGo env idx total g evts bs).2.2.countP (isRetryEv j))
        = evts.countP (isRetryEv j) + retryCountSpec env j idx bs := by
  induction bs with
  | nil => intro idx total g evts; simp [loadGo, retryCountSpec]
  | cons b rest ih =>
    intro idx total g evts
    by_cases h1 : (env idx).1
    · by_cases hc : (total + b.length) % 50000 = 0
      · simp [loadGo, h1, hc, ih, retryCountSpec, List.countP_append, List.countP_cons, isRetryEv]
      · simp [loadGo, h1, hc, ih, retryCountSpec, List.countP_append, List.countP_cons, isRetryEv]
    · by_cases hij : idx = j
      · subst hij
        by_cases h2 : (env idx).2
        · simp [loadGo, h1, h2, ih, retryCountSpec, List.countP_append, List.countP_cons, isRetryEv]
          omega
        · simp [loadGo, h1, h2, ih, retryCountSpec, List.countP_append, List.countP_cons, isRetryEv]
          omega
      · have hbe : (idx == j) = false := by simp [hij]
        by_cases h2 : (env idx).2
        · simp [loadGo, h1, h2, ih, retryCountSpec, hij, List.countP_append, List.countP_cons,
            isRetryEv, hbe]
        · simp [loadGo, h1, h2, ih, retryCountSpec, hij, List.countP_append, List.countP_cons,
            isRetryEv, hbe]

/-- Closed form of `retryCountSpec`: one retry block iff batch `j` lies in
the processed range and its first attempt failed. -/
theorem retryCountSpec_closed (env : Nat → Bool × Bool) (j : Nat) (bs : List (List RawRecord)) :
    ∀ idx, retryCountSpec env j idx bs
      = if idx ≤ j ∧ j < idx + bs.length ∧ (env j).1 = false then 1 else 0 := by
  induction bs with
  | nil =>
    intro idx
    rw [if_neg]
    · rfl
    · rintro ⟨_, h2, _⟩
      simp at h2
      omega
  | cons b rest ih =>
    intro idx
    simp only [retryCountSpec, ih (idx + 1), List.length_cons]
    by_cases hij : idx = j
    · subst hij
      by_cases hf : (env idx).1 = false
      · rw [if_pos ⟨rfl, hf⟩, if_neg (by omega), if_pos ⟨by omega, by omega, hf⟩]
      · rw [if_neg (by tauto), if_neg (by tauto), if_neg (by tauto)]
    · rw [if_neg (by tauto)]
      by_cases hcond : (idx + 1) ≤ j ∧ j < (idx + 1) + rest.length ∧ (env j).1 = false
      · rw [if_pos hcond, if_pos ⟨by omega, by omega, hcond.2.2⟩]
      · rw [if_neg hcond, if_neg ?_]
        rintro ⟨ha, hb, hc⟩
        exact hcond ⟨by omega, by omega, hc⟩

/-- Every first-attempt-successful batch in range leaves its application
event in the trace. -/
theorem loadGo_applied_mem (env : Nat → Bool × Bool) (j : Nat) (bs : List (List RawRecord)) :
    ∀ (p idx total : Nat) (g : GraphState) (evts : List Ev),
      idx + p = j → p < bs.length → (env j).1 = true →
      Ev.batchApplied j ∈ (loadGo env idx total g evts bs).2.2 := by
  induction bs with
  | nil =>
    intro p idx total g evts _ hp _
    exact absurd hp (by simp)
  | cons b rest ih =>
    intro p idx total g evts hpj hp hok
    match p, hpj with
    | 0, hpj =>
      have hij : idx = j := by omega
      subst hij
      simp only [loadGo, hok, if_true]
      obtain ⟨tl, htl⟩ := loadGo_events_ext env rest (idx + 1) (total + b.length)
        (process_movie_batch g b)
        (evts ++ [Ev.batchApplied idx, Ev.progressLogged (total + b.length)]
          ++ (if (total + b.length) % 50000 = 0 then [Ev.checkpointEnsure] else []))
      rw [htl]
      simp
    | p' + 1, hpj =>
      have hp' : p' < rest.length := by simpa using hp
      have hpj' : (idx + 1) + p' = j := by omega
      by_cases h1 : (env idx).1
      · simp only [loadGo, h1, if_true]
        exact ih p' (idx + 1) _ _ _ hpj' hp' hok
      · by_cases h2 : (env idx).2
        · simp only [loadGo, h1, h2, Bool.false_eq_true, if_false, if_true]
          exact ih p' (idx + 1) _ _ _ hpj' hp' hok
        · simp only [loadGo, h1, h2, Bool.false_eq_true, if_false]
          exact ih p' (idx + 1) _ _ _ hpj' hp' hok

/-- Recognizer of the proactive checkpoint connection-check event. -/
def isCkpt : Ev → Bool
  | .checkpointEnsure => true
  | _ => false

/-- Number of proactive checkpoint checks the batch loop performs: one after
each first-attempt-successful batch whose updated cumulative counter is an
exact multiple of 50 000. -/
def ckptCountSpec (env : Nat → Bool × Bool) : Nat → Nat → List (List RawRecord) → Nat
  | _, _, [] => 0
  | idx, total, b :: rest =>
    if (env idx).1 then
      (if (total + b.length) % 50000 = 0 then 1 else 0)
        + ckptCountSpec env (idx + 1) (total + b.length) rest
    else ckptCountSpec env (idx + 1) total rest

/-- The batch loop emits exactly `ckptCountSpec` checkpoint events. -/
theorem loadGo_ckpt_count (env : Nat → Bool × Bool) (bs : List (List RawRecord)) :
    ∀ (idx total : Nat) (g : GraphState) (evts : List Ev),
      ((loadGo env idx total g evts bs).2.2.countP isCkpt)
        = evts.countP isCkpt + ckptCountSpec env idx total bs := by
  induction bs with
  | nil => intro idx total g evts; simp [loadGo, ckptCountSpec]
  | cons b rest ih =>
    intro idx total g evts
    by_cases h1 : (env idx).1
    · by_cases hc : (total + b.length) % 50000 = 0
      · simp [loadGo, h1, hc, ckptCountSpec, ih, List.countP_append, List.countP_cons,
          List.countP_nil, isCkpt]
        omega
      · simp [loadGo, h1, hc, ckptCountSpec, ih, List.countP_append, List.countP_cons,
          List.countP_nil, isCkpt]
    · by_cases h2 : (env idx).2
      · simp [loadGo, h1, h2, ckptCountSpec, ih, List.countP_append, List.countP_cons,
          List.countP_nil, isCkpt]
      · simp [loadGo, h1, h2, ckptCountSpec, ih, List.countP_append, List.countP_cons,
          List.countP_nil, isCkpt]

/-- `ckptCountSpec` depends only on the first-attempt outcomes. -/
theorem ckptCountSpec_congr (env1 env2 : Nat → Bool × Bool)
    (h : ∀ k, (env1 k).1 = (env2 k).1) (bs : List (List RawRecord)) :
    ∀ idx total, ckptCountSpec env1 idx total bs = ckptCountSpec env2 idx total bs := by
  induction bs with
  | nil => intro idx total; rfl
  | cons b rest ih => intro idx total; simp only [ckptCountSpec, h idx, ih]

/-- C10 (implicit): the cumulative processed counter of `load_movies` counts
exactly the batches whose first upsert attempt succeeded — a batch recovered
by its single retry is applied to the store but never added to the counter —
and therefore the counter and the checkpoint triggers computed from it are
unchanged by the outcome of any batch's retry. -/
theorem c10_counter_skips_retried_batches (path : String) (recs : List RawRecord)
    (env : Nat → Bool × Bool) (g : GraphState) :
    (load_movies (fun _ => true) path recs env g).2.2.1
        = expectedTotal env 0 (sliceBatches 40000 recs)
    ∧ (∀ (j : Nat) (env2 : Nat → Bool × Bool),
        (∀ k, k ≠ j → env2 k = env k) → (env j).1 = false → (env2 j).1 = false →
        (load_movies (fun _ => true) path recs env2 g).2.2.1
            = (load_movies (fun _ => true) path recs env g).2.2.1
        ∧ (load_movies (fun _ => true) path recs env2 g).2.2.2.countP isCkpt
            = (load_movies (fun _ => true) path recs env g).2.2.2.countP isCkpt) := by
  have hlm : ∀ env' : Nat → Bool × Bool, load_movies (fun _ => true) path recs env' g
      = (none, loadGo env' 0 0 g [Ev.schemaBootstrap] (sliceBatches 40000 recs)) := by
    intro env'
    simp [load_movies]
  constructor
  · rw [hlm, loadGo_total]
    omega
  · intro j env2 hagree hf hf2
    have hfst : ∀ k, (env2 k).1 = (env k).1 := by
      intro k
      by_cases hk : k = j
      · subst hk
        rw [hf, hf2]
      · rw [hagree k hk]
    constructor
    · rw [hlm, hlm, loadGo_total, loadGo_total,
        expectedTotal_congr env2 env hfst (sliceBatches 40000 recs) 0]
    · rw [hlm, hlm, loadGo_ckpt_count, loadGo_ckpt_count,
        ckptCountSpec_congr env2 env hfst (sliceBatches 40000 recs) 0 0]

/-- Witness for `c10_counter_skips_retried_batches`: changing a failed
batch's retry outcome does not change the cumulative counter. -/
theorem c10_counter_skips_retried_batches_witness :
    (load_movies (fun _ => true) "tmdb_movies_2023.csv"
        [⟨PyVal.vint 2, PyVal.vnone, PyVal.vnone, PyVal.vnone, PyVal.vnone, PyVal.vnone,
          PyVal.vnone, GVal.scalar PyVal.vnone⟩]
        (fun k => if k = 0 then ((false : Bool), (false : Bool)) else (true, true))
        emptyStore).2.2.1
      = (load_movies (fun _ => true) "tmdb_movies_2023.csv"
          [⟨PyVal.vint 2, PyVal.vnone, PyVal.vnone, PyVal.vnone, PyVal.vnone, PyVal.vnone,
            PyVal.vnone, GVal.scalar PyVal.vnone⟩]
          (fun k => if k = 0 then ((false : Bool), (true : Bool)) else (true, true))
          emptyStore).2.2.1 :=
  ((c10_counter_skips_retried_batches "tmdb_movies_2023.csv"
      [⟨PyVal.vint 2, PyVal.vnone, PyVal.vnone, PyVal.vnone, PyVal.vnone, PyVal.vnone,
        PyVal.vnone, GVal.scalar PyVal.vnone⟩]
      (fun k => if k = 0 then (false, true) else (true, true)) emptyStore).2 0
    (fun k => if k = 0 then (false, false) else (true, true))
    (fun k hk => by simp [hk]) (by simp) (by simp)).1

/-- Batch partition of an 80 000-record dataset: two full batches. -/
theorem sliceBatches_rep80k (r : RawRecord) :
    sliceBatches 40000 (List.replicate 80000 r)
      = [List.replicate 40000 r, List.replicate 40000 r] := by
  simp only [sliceBatches, List.length_replicate]
  norm_num
  rw [show List.range 2 = [0, 1] from by decide]
  simp only [List.map_cons, List.map_nil, Nat.zero_mul, Nat.one_mul, List.drop_zero,
    List.drop_replicate, List.take_replicate]
  norm_num

/-- Batch partition of a 50 000-record dataset: one full and one partial
batch. -/
theorem sliceBatches_rep50k (r : RawRecord) :
    sliceBatches 40000 (List.replicate 50000 r)
      = [List.replicate 40000 r, List.replicate 10000 r] := by
  simp only [sliceBatches, List.length_replicate]
  norm_num
  rw [show List.range 2 = [0, 1] from by decide]
  simp only [List.map_cons, List.map_nil, Nat.zero_mul, Nat.one_mul, List.drop_zero,
    List.drop_replicate, List.take_replicate]
  norm_num

/-- Batch partition of a 240 000-record dataset: six full batches. -/
theorem sliceBatches_rep240k (r : RawRecord) :
    sliceBatches 40000 (List.replicate 240000 r)
      = [List.replicate 40000 r, List.replicate 40000 r, List.replicate 40000 r,
         List.replicate 40000 r, List.replicate 40000 r, List.replicate 40000 r] := by
  simp only [sliceBatches, List.length_replicate]
  norm_num
  rw [show List.range 6 = [0, 1, 2, 3, 4, 5] from by decide]
  simp only [List.map_cons, List.map_nil, Nat.zero_mul, Nat.one_mul, List.drop_zero,
    List.drop_replicate, List.take_replicate]
  norm_num

/-- Trace of two clean 40 000-record batches: the counter passes 40 000 and
80 000, crossing the 50 000 threshold, and no checkpoint check is
emitted. -/
theorem loadGo_trace2_40k_40k (b1 b2 : List RawRecord) (g : GraphState)
    (h1 : b1.length = 40000) (h2 : b2.length = 40000) :
    (loadGo (fun _ => (true, true)) 0 0 g [Ev.schemaBootstrap] [b1, b2]).2.2
      = [Ev.schemaBootstrap, Ev.batchApplied 0, Ev.progressLogged 40000,
         Ev.batchApplied 1, Ev.progressLogged 80000] := by
  simp [loadGo, h1, h2]

/-- Trace of a clean 40 000-record batch followed by a 10 000-record batch:
the counter reaches exactly 50 000 and the checkpoint check is emitted. -/
theorem loadGo_trace2_40k_10k (b1 b2 : List RawRecord) (g : GraphState)
    (h1 : b1.length = 40000) (h2 : b2.length = 10000) :
    (loadGo (fun _ => (true, true)) 0 0 g [Ev.schemaBootstrap] [b1, b2]).2.2
      = [Ev.schemaBootstrap, Ev.batchApplied 0, Ev.progressLogged 40000,
         Ev.batchApplied 1, Ev.progressLogged 50000, Ev.checkpointEnsure] := by
  simp [loadGo, h1, h2]

/-- Trace of six clean 40 000-record batches: the only checkpoint check is
emitted when the counter reaches 200 000, the only exact multiple of 50 000
among the cumulative values, and it is emitted before batch 5 is
processed. -/
theorem loadGo_trace6_40k (b1 b2 b3 b4 b5 b6 : List RawRecord) (g : GraphState)
    (h1 : b1.length = 40000) (h2 : b2.length = 40000) (h3 : b3.length = 40000)
    (h4 : b4.length = 40000) (h5 : b5.length = 40000) (h6 : b6.length = 40000) :
    (loadGo (fun _ => (true, true)) 0 0 g [Ev.schemaBootstrap] [b1, b2, b3, b4, b5, b6]).2.2
      = [Ev.schemaBootstrap, Ev.batchApplied 0, Ev.progressLogged 40000,
         Ev.batchApplied 1, Ev.progressLogged 80000,
         Ev.batchApplied 2, Ev.progressLogged 120000,
         Ev.batchApplied 3, Ev.progressLogged 160000,
         Ev.batchApplied 4, Ev.progressLogged 200000, Ev.checkpointEnsure,
         Ev.batchApplied 5, Ev.progressLogged 240000] := by
  simp [loadGo, h1, h2, h3, h4, h5, h6]

/-- On an existing dataset path, `load_movies` runs the schema bootstrap
and the batch loop over the 40 000-record chunks. -/
theorem load_movies_existing_path (path : String) (recs : List RawRecord)
    (env : Nat → Bool × Bool) (g : GraphState) :
    load_movies (fun _ => true) path recs env g
      = (none, loadGo env 0 0 g [Ev.schemaBootstrap] (sliceBatches 40000 recs)) := by
  simp [load_movies]

/-- Counterexample to C3 as stated: on a clean 80 000-record load the
cumulative counter goes 40 000 then 80 000, crossing the 50 000-multiple
between the two batches, yet no proactive connection check is triggered —
the code checks `total_processed % 50000 == 0`, which never holds here, not
"crossed a multiple of 50 000". -/
theorem c3_counterexample :
    (load_movies (fun _ => true) "tmdb_movies_2023.csv"
        (List.replicate 80000 (⟨PyVal.vint 3, PyVal.vnone, PyVal.vnone, PyVal.vnone,
          PyVal.vnone, PyVal.vnone, PyVal.vnone, GVal.scalar PyVal.vnone⟩ : RawRecord))
        (fun _ => (true, true)) emptyStore).2.2.2
      = [Ev.schemaBootstrap, Ev.batchApplied 0, Ev.progressLogged 40000,
         Ev.batchApplied 1, Ev.progressLogged 80000]
    ∧ (40000 < 50000 ∧ 50000 ≤ 80000)
    ∧ Ev.checkpointEnsure ∉ (load_movies (fun _ => true) "tmdb_movies_2023.csv"
        (List.replicate 80000 (⟨PyVal.vint 3, PyVal.vnone, PyVal.vnone, PyVal.vnone,
          PyVal.vnone, PyVal.vnone, PyVal.vnone, GVal.scalar PyVal.vnone⟩ : RawRecord))
        (fun _ => (true, true)) emptyStore).2.2.2 := by
  have h : (load_movies (fun _ => true) "tmdb_movies_2023.csv"
      (List.replicate 80000 (⟨PyVal.vint 3, PyVal.vnone, PyVal.vnone, PyVal.vnone,
        PyVal.vnone, PyVal.vnone, PyVal.vnone, GVal.scalar PyVal.vnone⟩ : RawRecord))
      (fun _ => (true, true)) emptyStore).2.2.2
      = [Ev.schemaBootstrap, Ev.batchApplied 0, Ev.progressLogged 40000,
         Ev.batchApplied 1, Ev.progressLogged 80000] := by
    rw [load_movies_existing_path, sliceBatches_rep80k]
    exact loadGo_trace2_40k_40k _ _ _ (List.length_replicate ..) (List.length_replicate ..)
  refine ⟨h, ⟨by norm_num, by norm_num⟩, ?_⟩
  rw [h]
  decide

/-- C3 (amended): a proactive connection check is triggered after a batch
exactly when the batch succeeded on first attempt and the cumulative
processed counter is then an exact multiple of 50 000 (crossings that skip
the multiple trigger nothing, and retried batches do not advance the
counter); in particular, after exactly 50 000 cumulative processed records
a check is triggered before continuing, and on a 240 000-record load the
only check fires at 200 000, before the next batch is processed. -/
theorem c3_checkpoint_amended :
    (∀ (path : String) (recs : List RawRecord) (env : Nat → Bool × Bool) (g : GraphState),
      (load_movies (fun _ => true) path recs env g).2.2.2.countP isCkpt
        = ckptCountSpec env 0 0 (sliceBatches 40000 recs))
    ∧ (load_movies (fun _ => true) "tmdb_movies_2023.csv"
        (List.replicate 50000 (⟨PyVal.vint 3, PyVal.vnone, PyVal.vnone, PyVal.vnone,
          PyVal.vnone, PyVal.vnone, PyVal.vnone, GVal.scalar PyVal.vnone⟩ : RawRecord))
        (fun _ => (true, true)) emptyStore).2.2.2
      = [Ev.schemaBootstrap, Ev.batchApplied 0, Ev.progressLogged 40000,
         Ev.batchApplied 1, Ev.progressLogged 50000, Ev.checkpointEnsure]
    ∧ (load_movies (fun _ => true) "tmdb_movies_2023.csv"
        (List.replicate 240000 (⟨PyVal.vint 3, PyVal.vnone, PyVal.vnone, PyVal.vnone,
          PyVal.vnone, PyVal.vnone, PyVal.vnone, GVal.scalar PyVal.vnone⟩ : RawRecord))
        (fun _ => (true, true)) emptyStore).2.2.2
      = [Ev.schemaBootstrap, Ev.batchApplied 0, Ev.progressLogged 40000,
         Ev.batchApplied 1, Ev.progressLogged 80000,
         Ev.batchApplied 2, Ev.progressLogged 120000,
         Ev.batchApplied 3, Ev.progressLogged 160000,
         Ev.batchApplied 4, Ev.progressLogged 200000, Ev.checkpointEnsure,
         Ev.batchApplied 5, Ev.progressLogged 240000] := by
  refine ⟨?_, ?_, ?_⟩
  · intro path recs env g
    rw [load_movies_existing_path]
    rw [show ((none : Option String),
        loadGo env 0 0 g [Ev.schemaBootstrap] (sliceBatches 40000 recs)).2.2.2
      = (loadGo env 0 0 g [Ev.schemaBootstrap] (sliceBatches 40000 recs)).2.2 from rfl]
    rw [loadGo_ckpt_count]
    simp [List.countP_cons, List.countP_nil, isCkpt]
  · rw [load_movies_existing_path, sliceBatches_rep50k]
    exact loadGo_trace2_40k_10k _ _ _ (List.length_replicate ..) (List.length_replicate ..)
  · rw [load_movies_existing_path, sliceBatches_rep240k]
    exact loadGo_trace6_40k _ _ _ _ _ _ _ (List.length_replicate ..) (List.length_replicate ..)
      (List.length_replicate ..) (List.length_replicate ..) (List.length_replicate ..)
      (List.length_replicate ..)

/-- The merged element is present after a merge. -/
theorem mem_mergeIn_self {α : Type} [DecidableEq α] (xs : List α) (a : α) :
    a ∈ mergeIn xs a := by
  unfold mergeIn
  by_cases h : a ∈ xs
  · rw [if_pos h]
    exact h
  · rw [if_neg h]
    simp

/-- Merging preserves existing elements. -/
theorem mem_mergeIn_of_mem {α : Type} [DecidableEq α] {xs : List α} {b : α} (a : α)
    (h : b ∈ xs) : b ∈ mergeIn xs a := by
  unfold mergeIn
  by_cases ha : a ∈ xs
  · rw [if_pos ha]
    exact h
  · rw [if_neg ha]
    exact List.mem_append_left _ h

/-- Elements present before a merge fold are present after it. -/
theorem mem_foldl_mergeIn_of_mem {α : Type} [DecidableEq α] (l : List α) :
    ∀ (xs : List α) (b : α), b ∈ xs → b ∈ l.foldl mergeIn xs := by
  induction l with
  | nil => intro xs b h; exact h
  | cons a rest ih =>
    intro xs b h
    exact ih (mergeIn xs a) b (mem_mergeIn_of_mem a h)

/-- Every merged element is present after the merge fold. -/
theorem mem_foldl_mergeIn {α : Type} [DecidableEq α] (l : List α) :
    ∀ (xs : List α) (b : α), b ∈ l → b ∈ l.foldl mergeIn xs := by
  induction l with
  | nil => intro xs b h; simp at h
  | cons a rest ih =>
    intro xs b h
    rcases List.mem_cons.mp h with rfl | hb
    · exact mem_foldl_mergeIn_of_mem rest (mergeIn xs b) b (mem_mergeIn_self xs b)
    · exact ih (mergeIn xs a) b hb

/-- Merging elements that are all already present changes nothing. -/
theorem foldl_mergeIn_of_subset {α : Type} [DecidableEq α] (l : List α) :
    ∀ (xs : List α), (∀ b ∈ l, b ∈ xs) → l.foldl mergeIn xs = xs := by
  induction l with
  | nil => intro xs _; rfl
  | cons a rest ih =>
    intro xs h
    have ha : a ∈ xs := h a (by simp)
    have hxs : mergeIn xs a = xs := by simp [mergeIn, ha]
    rw [List.foldl_cons, hxs]
    exact ih xs (fun b hb => h b (by simp [hb]))

/-- Re-issuing the same merge fold is a no-op: `MERGE` never duplicates. -/
theorem foldl_mergeIn_idem {α : Type} [DecidableEq α] (l : List α) (xs : List α) :
    l.foldl mergeIn (l.foldl mergeIn xs) = l.foldl mergeIn xs :=
  foldl_mergeIn_of_subset l _ (fun b hb => mem_foldl_mergeIn l xs b hb)

/-- A merge keeps the element list duplicate-free. -/
theorem nodup_mergeIn {α : Type} [DecidableEq α] {xs : List α} (a : α)
    (h : xs.Nodup) : (mergeIn xs a).Nodup := by
  unfold mergeIn
  by_cases ha : a ∈ xs
  · rw [if_pos ha]
    exact h
  · rw [if_neg ha]
    simp [List.nodup_append, h, ha]

/-- A merge fold keeps the element list duplicate-free. -/
theorem nodup_foldl_mergeIn {α : Type} [DecidableEq α] (l : List α) :
    ∀ (xs : List α), xs.Nodup → (l.foldl mergeIn xs).Nodup := by
  induction l with
  | nil => intro xs h; simpa using h
  | cons a rest ih => intro xs h; exact ih (mergeIn xs a) (nodup_mergeIn a h)

/-- The keys after a movie upsert: unchanged when the key was present,
extended by the new key otherwise. -/
theorem keys_upsertMovie (m : List (PyVal × MovieProps)) (k : PyVal) (p : MovieProps) :
    (upsertMovie m k p).map Prod.fst
      = if k ∈ m.map Prod.fst then m.map Prod.fst else m.map Prod.fst ++ [k] := by
  unfold upsertMovie
  by_cases h : k ∈ m.map Prod.fst
  · rw [if_pos h, if_pos h, List.map_map]
    refine List.map_congr_left ?_
    intro e _
    by_cases he : e.1 = k
    · simp [he]
    · simp [he]
  · rw [if_neg h, if_neg h]
    simp

/-- Existing keys survive a movie upsert. -/
theorem mem_keys_upsertMovie_of_mem {m : List (PyVal × MovieProps)} {a : PyVal}
    (k : PyVal) (p : MovieProps) (h : a ∈ m.map Prod.fst) :
    a ∈ (upsertMovie m k p).map Prod.fst := by
  rw [keys_upsertMovie]
  by_cases hk : k ∈ m.map Prod.fst
  · rw [if_pos hk]
    exact h
  · rw [if_neg hk]
    exact List.mem_append_left _ h

/-- The upserted key is present after the upsert. -/
theorem mem_keys_upsertMovie_self (m : List (PyVal × MovieProps)) (k : PyVal)
    (p : MovieProps) : k ∈ (upsertMovie m k p).map Prod.fst := by
  rw [keys_upsertMovie]
  by_cases hk : k ∈ m.map Prod.fst
  · rw [if_pos hk]
    exact hk
  · rw [if_neg hk]
    simp

/-- The uniqueness constraint is preserved: an upsert never duplicates a
movie id. -/
theorem nodup_keys_upsertMovie {m : List (PyVal × MovieProps)} (k : PyVal)
    (p : MovieProps) (h : (m.map Prod.fst).Nodup) :
    ((upsertMovie m k p).map Prod.fst).Nodup := by
  rw [keys_upsertMovie]
  by_cases hk : k ∈ m.map Prod.fst
  · rw [if_pos hk]
    exact h
  · rw [if_neg hk]
    simp [List.nodup_append, h, hk]

/-- Any stored entry carrying the upserted key carries the upserted
attribute map. -/
theorem eq_of_mem_upsertMovie {m : List (PyVal × MovieProps)} {k : PyVal}
    {p : MovieProps} {e : PyVal × MovieProps}
    (hmem : e ∈ upsertMovie m k p) (hk : e.1 = k) : e.2 = p := by
  unfold upsertMovie at hmem
  by_cases h : k ∈ m.map Prod.fst
  · rw [if_pos h] at hmem
    rcases List.mem_map.mp hmem with ⟨e0, _, he0⟩
    by_cases h0 : e0.1 = k
    · rw [if_pos h0] at he0
      rw [← he0]
    · rw [if_neg h0] at he0
      rw [← he0] at hk
      exact absurd hk h0
  · rw [if_neg h] at hmem
    rcases List.mem_append.mp hmem with hm | hm
    · exact absurd (hk ▸ List.mem_map_of_mem Prod.fst hm) h
    · rw [List.mem_singleton.mp hm]
  
/-- Entries with a different key are untouched by an upsert. -/
theorem mem_of_mem_upsertMovie_ne {m : List (PyVal × MovieProps)} {k : PyVal}
    {p : MovieProps} {e : PyVal × MovieProps}
    (hmem : e ∈ upsertMovie m k p) (hk : e.1 ≠ k) : e ∈ m := by
  unfold upsertMovie at hmem
  by_cases h : k ∈ m.map Prod.fst
  · rw [if_pos h] at hmem
    rcases List.mem_map.mp hmem with ⟨e0, he0m, he0⟩
    by_cases h0 : e0.1 = k
    · rw [if_pos h0] at he0
      rw [← he0] at hk
      exact absurd rfl hk
    · rw [if_neg h0] at he0
      rw [← he0]
      exact he0m
  · rw [if_neg h] at hmem
    rcases List.mem_append.mp hmem with hm | hm
    · exact hm
    · rw [List.mem_singleton.mp hm] at hk
      exact absurd rfl hk

/-- The movie-store component of applying a cleaned record sequence. -/
def moviesAfter (rs : List CleanRecord) (m : List (PyVal × MovieProps)) :
    List (PyVal × MovieProps) :=
  rs.foldl (fun acc r => upsertMovie acc r.id (propsOf r)) m

/-- The attribute map key `k` holds after a record sequence is applied over
a previous value `p`: the attributes of the last record with id `k`, or `p`
when no record has id `k`. -/
def overrideProps (rs : List CleanRecord) (k : PyVal) (p : MovieProps) : MovieProps :=
  rs.foldl (fun acc r => if r.id = k then propsOf r else acc) p

/-- Existing keys survive applying a record sequence. -/
theorem mem_keys_moviesAfter_of_mem (rs : List CleanRecord) :
    ∀ (m : List (PyVal × MovieProps)) (a : PyVal), a ∈ m.map Prod.fst →
      a ∈ (moviesAfter rs m).map Prod.fst := by
  induction rs with
  | nil => intro m a h; exact h
  | cons r rest ih =>
    intro m a h
    exact ih _ a (mem_keys_upsertMovie_of_mem r.id (propsOf r) h)

/-- Every processed record's id is a key of the resulting store. -/
theorem mem_keys_moviesAfter_of_id (rs : List CleanRecord) :
    ∀ (m : List (PyVal × MovieProps)) (r : CleanRecord), r ∈ rs →
      r.id ∈ (moviesAfter rs m).map Prod.fst := by
  induction rs with
  | nil => intro m r h; simp at h
  | cons q rest ih =>
    intro m r h
    rcases List.mem_cons.mp h with rfl | hr
    · exact mem_keys_moviesAfter_of_mem rest _ r.id
        (mem_keys_upsertMovie_self m r.id (propsOf r))
    · exact ih _ r hr

/-- When every record's id is already a key, applying the sequence is an
in-place attribute update. -/
theorem moviesAfter_eq_map (rs : List CleanRecord) :
    ∀ (m : List (PyVal × MovieProps)), (∀ r ∈ rs, r.id ∈ m.map Prod.fst) →
      moviesAfter rs m = m.map (fun e => (e.1, overrideProps rs e.1 e.2)) := by
  induction rs with
  | nil =>
    intro m _
    show m = m.map (fun e => (e.1, e.2))
    simp
  | cons r rest ih =>
    intro m h
    have hr : r.id ∈ m.map Prod.fst := h r (by simp)
    show moviesAfter rest (upsertMovie m r.id (propsOf r)) = _
    rw [show upsertMovie m r.id (propsOf r)
        = m.map (fun e => if e.1 = r.id then (r.id, propsOf r) else e) from by
      unfold upsertMovie
      rw [if_pos hr]]
    have hkeys : (m.map (fun e => if e.1 = r.id then (r.id, propsOf r) else e)).map Prod.fst
        = m.map Prod.fst := by
      rw [List.map_map]
      refine List.map_congr_left ?_
      intro e _
      by_cases he : e.1 = r.id
      · simp [he]
      · simp [he]
    have hrest : ∀ q ∈ rest,
        q.id ∈ (m.map (fun e => if e.1 = r.id then (r.id, propsOf r) else e)).map Prod.fst := by
      intro q hq
      rw [hkeys]
      exact h q (by simp [hq])
    rw [ih _ hrest, List.map_map]
    refine List.map_congr_left ?_
    intro e _
    show (fun e => (e.1, overrideProps rest e.1 e.2))
        (if e.1 = r.id then (r.id, propsOf r) else e)
      = (e.1, overrideProps (r :: rest) e.1 e.2)
    have hstep : overrideProps (r :: rest) e.1 e.2
        = overrideProps rest e.1 (if r.id = e.1 then propsOf r else e.2) := rfl
    by_cases he : e.1 = r.id
    · rw [if_pos he, hstep, if_pos he.symm]
      show (r.id, overrideProps rest r.id (propsOf r)) = (e.1, overrideProps rest e.1 (propsOf r))
      rw [he]
    · rw [if_neg he, hstep, if_neg (fun hh => he hh.symm)]

/-- When some record has id `k`, the resulting attribute map does not depend
on the previous value. -/
theorem overrideProps_indep (rs : List CleanRecord) :
    ∀ (k : PyVal), k ∈ rs.map CleanRecord.id →
      ∀ (p q : MovieProps), overrideProps rs k p = overrideProps rs k q := by
  induction rs with
  | nil => intro k h; simp at h
  | cons r rest ih =>
    intro k h p q
    have hstep : ∀ x : MovieProps, overrideProps (r :: rest) k x
        = overrideProps rest k (if r.id = k then propsOf r else x) := fun _ => rfl
    by_cases hr : r.id = k
    · rw [hstep, hstep, if_pos hr, if_pos hr]
    · have hk : k ∈ rest.map CleanRecord.id := by
        rcases List.mem_map.mp h with ⟨q0, hq0, hqe⟩
        rcases List.mem_cons.mp hq0 with rfl | hq0'
        · exact absurd hqe hr
        · exact hqe ▸ List.mem_map_of_mem CleanRecord.id hq0'
      rw [hstep, hstep, if_neg hr, if_neg hr]
      exact ih k hk p q

/-- When no record has id `k`, the previous attribute map survives. -/
theorem overrideProps_of_not_mem (rs : List CleanRecord) :
    ∀ (k : PyVal), k ∉ rs.map CleanRecord.id →
      ∀ (p : MovieProps), overrideProps rs k p = p := by
  induction rs with
  | nil => intro k _ p; rfl
  | cons r rest ih =>
    intro k h p
    have hr : r.id ≠ k := by
      intro hh
      exact h (by simp [← hh])
    have hk : k ∉ rest.map CleanRecord.id := by
      intro hh
      exact h (by simp [hh])
    show overrideProps rest k (if r.id = k then propsOf r else p) = p
    rw [if_neg hr]
    exact ih k hk p

/-- Entries whose key is not among the processed ids are untouched. -/
theorem mem_moviesAfter_of_not_id (rs : List CleanRecord) :
    ∀ (m : List (PyVal × MovieProps)) (e : PyVal × MovieProps),
      e ∈ moviesAfter rs m → e.1 ∉ rs.map CleanRecord.id → e ∈ m := by
  induction rs with
  | nil => intro m e h _; exact h
  | cons r rest ih =>
    intro m e hmem hid
    have hrest : e.1 ∉ rest.map CleanRecord.id := by
      intro hh
      exact hid (by simp [hh])
    have hne : e.1 ≠ r.id := by
      intro hh
      exact hid (by simp [hh])
    exact mem_of_mem_upsertMovie_ne (ih _ e hmem hrest) hne

/-- After one pass, every entry whose key is a processed id already carries
the attributes a re-pass would assign. -/
theorem overrideProps_fixed (rs : List CleanRecord) :
    ∀ (m : List (PyVal × MovieProps)) (e : PyVal × MovieProps),
      e ∈ moviesAfter rs m → e.1 ∈ rs.map CleanRecord.id →
      overrideProps rs e.1 e.2 = e.2 := by
  induction rs with
  | nil => intro m e _ h; simp at h
  | cons r rest ih =>
    intro m e hmem hid
    have hstep : overrideProps (r :: rest) e.1 e.2
        = overrideProps rest e.1 (if r.id = e.1 then propsOf r else e.2) := rfl
    by_cases hrest : e.1 ∈ rest.map CleanRecord.id
    · have h1 : overrideProps rest e.1 e.2 = e.2 := ih _ e hmem hrest
      rw [hstep]
      by_cases hre : r.id = e.1
      · rw [if_pos hre, overrideProps_indep rest e.1 hrest (propsOf r) e.2]
        exact h1
      · rw [if_neg hre]
        exact h1
    · have hre : r.id = e.1 := by
        rcases List.mem_map.mp hid with ⟨q, hq, hqe⟩
        rcases List.mem_cons.mp hq with rfl | hq'
        · exact hqe
        · exact absurd (hqe ▸ List.mem_map_of_mem CleanRecord.id hq') hrest
      have hm' : e ∈ upsertMovie m r.id (propsOf r) :=
        mem_moviesAfter_of_not_id rest _ e hmem hrest
      have he2 : e.2 = propsOf r := eq_of_mem_upsertMovie hm' hre.symm
      rw [hstep, if_pos hre, overrideProps_of_not_mem rest e.1 hrest, he2]

/-- Re-applying a record sequence leaves the movie store unchanged: the
merge-by-id upsert is idempotent over whole passes. -/
theorem moviesAfter_idem (rs : List CleanRecord) (m : List (PyVal × MovieProps)) :
    moviesAfter rs (moviesAfter rs m) = moviesAfter rs m := by
  rw [moviesAfter_eq_map rs _ (fun r hr => mem_keys_moviesAfter_of_id rs m r hr)]
  have hfix : ∀ e ∈ moviesAfter rs m,
      (fun e => (e.1, overrideProps rs e.1 e.2)) e = (fun e => e) e := by
    intro e he
    show (e.1, overrideProps rs e.1 e.2) = e
    by_cases hid : e.1 ∈ rs.map CleanRecord.id
    · rw [overrideProps_fixed rs m e he hid]
    · rw [overrideProps_of_not_mem rs e.1 hid]
  rw [List.map_congr_left hfix, List.map_id']

/-- Applying a record sequence never duplicates a movie id. -/
theorem nodup_keys_moviesAfter (rs : List CleanRecord) :
    ∀ (m : List (PyVal × MovieProps)), (m.map Prod.fst).Nodup →
      ((moviesAfter rs m).map Prod.fst).Nodup := by
  induction rs with
  | nil => intro m h; exact h
  | cons r rest ih =>
    intro m h
    exact ih _ (nodup_keys_upsertMovie r.id (propsOf r) h)

/-- The upsert query over a whole cleaned record list. -/
def applyRecs (g : GraphState) (rs : List CleanRecord) : GraphState :=
  rs.foldl applyRecord g

/-- All non-null genre names a record sequence merges, in order. -/
def genreSeeds (rs : List CleanRecord) : List PyVal :=
  (rs.map nonNullGenres).flatten

/-- All `HAS_GENRE` edges a record sequence merges, in order. -/
def edgeSeeds (rs : List CleanRecord) : List (PyVal × PyVal) :=
  (rs.map (fun r => (nonNullGenres r).map (fun n => (r.id, n)))).flatten

/-- Movie-store component of the bulk upsert. -/
theorem applyRecs_movies (rs : List CleanRecord) :
    ∀ g : GraphState, (applyRecs g rs).movies = moviesAfter rs g.movies := by
  induction rs with
  | nil => intro g; rfl
  | cons r rest ih =>
    intro g
    exact ih (applyRecord g r)

/-- Genre-node component of the bulk upsert. -/
theorem applyRecs_genreNodes (rs : List CleanRecord) :
    ∀ g : GraphState, (applyRecs g rs).genreNodes
      = (genreSeeds rs).foldl mergeIn g.genreNodes := by
  induction rs with
  | nil => intro g; rfl
  | cons r rest ih =>
    intro g
    show (applyRecs (applyRecord g r) rest).genreNodes = _
    rw [ih]
    show _ = ((nonNullGenres r ++ genreSeeds rest).foldl mergeIn g.genreNodes)
    rw [List.foldl_append]
    rfl

/-- Edge component of the bulk upsert. -/
theorem applyRecs_hasGenre (rs : List CleanRecord) :
    ∀ g : GraphState, (applyRecs g rs).hasGenre
      = (edgeSeeds rs).foldl mergeIn g.hasGenre := by
  induction rs with
  | nil => intro g; rfl
  | cons r rest ih =>
    intro g
    show (applyRecs (applyRecord g r) rest).hasGenre = _
    rw [ih]
    show _ = (((nonNullGenres r).map (fun n => (r.id, n)) ++ edgeSeeds rest).foldl
      mergeIn g.hasGenre)
    rw [List.foldl_append]
    rfl

/-- Running the bulk upsert twice over the same record sequence produces
exactly the store of running it once. -/
theorem applyRecs_idem (g : GraphState) (rs : List CleanRecord) :
    applyRecs (applyRecs g rs) rs = applyRecs g rs := by
  refine GraphState.ext ?_ ?_ ?_
  · rw [applyRecs_movies, applyRecs_movies]
    exact moviesAfter_idem rs g.movies
  · rw [applyRecs_genreNodes, applyRecs_genreNodes]
    exact foldl_mergeIn_idem (genreSeeds rs) g.genreNodes
  · rw [applyRecs_hasGenre, applyRecs_hasGenre]
    exact foldl_mergeIn_idem (edgeSeeds rs) g.hasGenre

/-- With every batch applied, the reference semantics is the plain fold of
the bulk upsert over the batches. -/
theorem applyChunks_allOk (bs : List (List RawRecord)) :
    ∀ (idx : Nat) (g : GraphState),
      applyChunks (fun _ => (true, true)) idx g bs = bs.foldl process_movie_batch g := by
  induction bs with
  | nil => intro idx g; rfl
  | cons b rest ih =>
    intro idx g
    show applyChunks _ (idx + 1) (if appliedB (fun _ => (true, true)) idx then
        process_movie_batch g b else g) rest = _
    rw [if_pos (by rfl), ih]
    rfl

/-- Folding the per-batch upsert equals one bulk upsert over the
concatenated cleaned records. -/
theorem foldl_batches_eq_applyRecs (bs : List (List RawRecord)) :
    ∀ g : GraphState, bs.foldl process_movie_batch g
      = applyRecs g ((bs.map (fun b => b.map cleanRecord)).flatten) := by
  induction bs with
  | nil => intro g; rfl
  | cons b rest ih =>
    intro g
    show rest.foldl process_movie_batch (process_movie_batch g b) = _
    rw [ih]
    show _ = applyRecs g ((b.map cleanRecord) ++ (rest.map (fun b => b.map cleanRecord)).flatten)
    unfold applyRecs
    rw [List.foldl_append]
    rfl

/-- The store `load_movies` leaves behind on a clean run (all store round
trips succeed). -/
def loadedStore (recs : List RawRecord) (g : GraphState) : GraphState :=
  (load_movies (fun _ => true) "tmdb_movies_2023.csv" recs (fun _ => (true, true)) g).2.1

/-- A clean load is one bulk upsert of all cleaned records over the batch
partition. -/
theorem loadedStore_eq (recs : List RawRecord) (g : GraphState) :
    loadedStore recs g
      = applyRecs g (((sliceBatches 40000 recs).map (fun b => b.map cleanRecord)).flatten) := by
  unfold loadedStore
  rw [load_movies_existing_path]
  rw [show ((none : Option String), loadGo (fun _ => (true, true)) 0 0 g [Ev.schemaBootstrap]
      (sliceBatches 40000 recs)).2.1
    = (loadGo (fun _ => (true, true)) 0 0 g [Ev.schemaBootstrap]
        (sliceBatches 40000 recs)).1 from rfl]
  rw [loadGo_graph, applyChunks_allOk, foldl_batches_eq_applyRecs]

/-- C4: loading the same dataset twice produces exactly the same store as
loading it once — merge-by-id keeps at most one Movie node per id, merge
keeps at most one Genre node per distinct genre value, and re-issuing a
`HAS_GENRE` relationship never duplicates it (the store stays
duplicate-free whenever it started duplicate-free, e.g. from empty). -/
theorem c4_idempotent_load (recs : List RawRecord) (g : GraphState) :
    loadedStore recs (loadedStore recs g) = loadedStore recs g
    ∧ ((g.movies.map Prod.fst).Nodup →
        ((loadedStore recs g).movies.map Prod.fst).Nodup)
    ∧ (g.genreNodes.Nodup → (loadedStore recs g).genreNodes.Nodup)
    ∧ (g.hasGenre.Nodup → (loadedStore recs g).hasGenre.Nodup) := by
  refine ⟨?_, ?_, ?_, ?_⟩
  · simp only [loadedStore_eq]
    exact applyRecs_idem g _
  · intro h
    rw [loadedStore_eq, applyRecs_movies]
    exact nodup_keys_moviesAfter _ g.movies h
  · intro h
    rw [loadedStore_eq, applyRecs_genreNodes]
    exact nodup_foldl_mergeIn _ g.genreNodes h
  · intro h
    rw [loadedStore_eq, applyRecs_hasGenre]
    exact nodup_foldl_mergeIn _ g.hasGenre h

/-- Witness for `c4_idempotent_load`: a record whose genre list repeats
"Action" still yields a duplicate-free store, and reloading it changes
nothing. -/
theorem c4_idempotent_load_witness :
    loadedStore [⟨PyVal.vint 7, PyVal.vstr "A", PyVal.vnone, PyVal.vnone, PyVal.vnone,
        PyVal.vnone, PyVal.vnone, GVal.scalar (PyVal.vstr "Action, Action")⟩]
      (loadedStore [⟨PyVal.vint 7, PyVal.vstr "A", PyVal.vnone, PyVal.vnone, PyVal.vnone,
        PyVal.vnone, PyVal.vnone, GVal.scalar (PyVal.vstr "Action, Action")⟩] emptyStore)
      = loadedStore [⟨PyVal.vint 7, PyVal.vstr "A", PyVal.vnone, PyVal.vnone, PyVal.vnone,
        PyVal.vnone, PyVal.vnone, GVal.scalar (PyVal.vstr "Action, Action")⟩] emptyStore
    ∧ (loadedStore [⟨PyVal.vint 7, PyVal.vstr "A", PyVal.vnone, PyVal.vnone, PyVal.vnone,
        PyVal.vnone, PyVal.vnone, GVal.scalar (PyVal.vstr "Action, Action")⟩]
        emptyStore).genreNodes.Nodup :=
  ⟨(c4_idempotent_load [⟨PyVal.vint 7, PyVal.vstr "A", PyVal.vnone, PyVal.vnone, PyVal.vnone,
      PyVal.vnone, PyVal.vnone, GVal.scalar (PyVal.vstr "Action, Action")⟩] emptyStore).1,
    (c4_idempotent_load [⟨PyVal.vint 7, PyVal.vstr "A", PyVal.vnone, PyVal.vnone, PyVal.vnone,
      PyVal.vnone, PyVal.vnone, GVal.scalar (PyVal.vstr "Action, Action")⟩]
      emptyStore).2.2.1 (by decide)⟩

/-- Model of the cleaning loop's `if pd.isna(value)` test on a genre cell,
including its failure mode: on a native list of two or more elements
`pd.isna` returns an elementwise boolean array whose use in `if` raises
`ValueError`, failing the record's batch before genre normalization runs;
on scalars (and on lists of at most one element, whose array truth value is
unambiguous) it is the scalar missing-value test. -/
def isnaGE : GVal → Except String Bool
  | .scalar v => .ok (isna v)
  | .list xs =>
    if 2 ≤ xs.length then
      .error "the truth value of an array with more than one element is ambiguous"
    else .ok false

/-- The genre pipeline of `_process_movie_batch` with the cleaning loop's
failure mode: the NaN-to-None substitution consults `pd.isna`, which raises
on multi-element native lists; on every other input the normalization of
`genresPipeline` runs. -/
def genresPipelineE (v : GVal) : Except String (List PyVal) :=
  match isnaGE v with
  | .error e => .error e
  | .ok b => .ok (normalizeGenres (if b then GVal.scalar PyVal.vnone else v))

/-- Record cleaning with the loop's failure mode: the scalar cells never
make `pd.isna` raise, the genre cell can. -/
def cleanRecordE (r : RawRecord) : Except String CleanRecord :=
  match genresPipelineE r.genres with
  | .error e => .error e
  | .ok gs =>
    .ok { id := cleanVal r.id
          title := cleanVal r.title
          overview := cleanVal r.overview
          release_date := cleanVal r.release_date
          vote_average := cleanVal r.vote_average
          vote_count := cleanVal r.vote_count
          popularity := cleanVal r.popularity
          genres := gs }

/-- Clean every record of a batch in order, stopping at the first record
whose cleaning raises. -/
def cleanBatchE : List RawRecord → Except String (List CleanRecord)
  | [] => .ok []
  | r :: rest =>
    match cleanRecordE r with
    | .error e => .error e
    | .ok c =>
      match cleanBatchE rest with
      | .error e => .error e
      | .ok cs => .ok (c :: cs)

/-- `_process_movie_batch` with its failure modes: the cleaning loop raises
on a multi-element native-list genre cell, and the bulk query raises when
some record's id is null — Cypher `MERGE (m:Movie {id: null})` is an error —
with the failed transaction rolled back, leaving the store unchanged.  On
success the effect is the merge semantics `applyRecs` of the upsert
query. -/
def process_movie_batchE (g : GraphState) (batch : List RawRecord) :
    Except String GraphState :=
  match cleanBatchE batch with
  | .error e => .error e
  | .ok rs =>
    if rs.any (fun r => decide (r.id = PyVal.vnone)) then
      .error "cannot merge node using null property value for id"
    else .ok (applyRecs g rs)

/-- On the cells where the `pd.isna` test returns, `isnaGE` agrees with the
non-raising restriction `isnaG`. -/
theorem isnaGE_ok {v : GVal} {b : Bool} (h : isnaGE v = .ok b) : b = isnaG v := by
  cases v with
  | scalar s =>
    simp [isnaGE] at h
    rw [← h]
    rfl
  | list xs =>
    by_cases hl : 2 ≤ xs.length
    · simp [isnaGE, hl] at h
    · simp [isnaGE, hl] at h
      rw [h]
      rfl

/-- When the genre pipeline with failure modes returns, it returns exactly
the non-raising pipeline's result. -/
theorem genresPipelineE_ok {v : GVal} {gs : List PyVal}
    (h : genresPipelineE v = .ok gs) : gs = genresPipeline v := by
  unfold genresPipelineE at h
  cases hv : isnaGE v with
  | error e => rw [hv] at h; simp at h
  | ok b =>
    rw [hv] at h
    simp only [Except.ok.injEq] at h
    rw [← h, isnaGE_ok hv]
    rfl

/-- When record cleaning with failure modes returns, it returns exactly the
non-raising cleaning's record. -/
theorem cleanRecordE_ok {r : RawRecord} {c : CleanRecord}
    (h : cleanRecordE r = .ok c) : c = cleanRecord r := by
  unfold cleanRecordE at h
  cases hg : genresPipelineE r.genres with
  | error e => rw [hg] at h; simp at h
  | ok gs =>
    rw [hg] at h
    simp only [Except.ok.injEq] at h
    rw [← h, genresPipelineE_ok hg]
    rfl

/-- Counterexample to C1 as stated: a record whose genre cell is the native
list `["Action", "Drama"]` does not normalize to the two genres — the
cleaning loop's `if pd.isna(value)` raises on the two-element list, outside
the genre `try`/`except`, so the record's batch fails (it is retried once
and then skipped) before normalization ever runs. -/
theorem c1_counterexample :
    cleanRecordE (⟨PyVal.vint 9, PyVal.vnone, PyVal.vnone, PyVal.vnone, PyVal.vnone,
        PyVal.vnone, PyVal.vnone,
        GVal.list [PyVal.vstr "Action", PyVal.vstr "Drama"]⟩ : RawRecord)
      = .error "the truth value of an array with more than one element is ambiguous"
    ∧ process_movie_batchE emptyStore
        [⟨PyVal.vint 9, PyVal.vnone, PyVal.vnone, PyVal.vnone, PyVal.vnone,
          PyVal.vnone, PyVal.vnone,
          GVal.list [PyVal.vstr "Action", PyVal.vstr "Drama"]⟩]
      = .error "the truth value of an array with more than one element is ambiguous" :=
  ⟨rfl, rfl⟩

/-- C1 (amended): the scalar genre encodings normalize as specified — the
JSON string and the comma string yield the two genres, the empty string and
null (None or NaN) yield the empty list, a malformed non-iterable cell falls
back to the empty list via the `except` handler, and blank or empty elements
are discarded — but a native-list cell of two or more elements is not
normalized: `pd.isna` raises on it in the per-record cleaning loop and the
record's batch fails; only single-element native lists pass through to
normalization. -/
theorem c1_genre_normalization_amended :
    genresPipelineE (GVal.scalar (PyVal.vstr "[\"Action\",\"Drama\"]"))
      = .ok [PyVal.vstr "Action", PyVal.vstr "Drama"]
    ∧ genresPipelineE (GVal.scalar (PyVal.vstr "Action, Drama"))
      = .ok [PyVal.vstr "Action", PyVal.vstr "Drama"]
    ∧ genresPipelineE (GVal.scalar (PyVal.vstr "")) = .ok []
    ∧ genresPipelineE (GVal.scalar PyVal.vnone) = .ok []
    ∧ genresPipelineE (GVal.scalar PyVal.vnan) = .ok []
    ∧ genresPipelineE (GVal.list [PyVal.vstr "Action", PyVal.vstr "Drama"])
      = .error "the truth value of an array with more than one element is ambiguous"
    ∧ genresPipelineE (GVal.list [PyVal.vstr "Action"]) = .ok [PyVal.vstr "Action"]
    ∧ genresPipelineE (GVal.scalar (PyVal.vfloat 5)) = .ok []
    ∧ genresPipelineE (GVal.scalar (PyVal.vstr "[\"Action\", \"  \", \"\"]"))
      = .ok [PyVal.vstr "Action"] :=
  ⟨rfl, rfl, rfl, rfl, rfl, rfl, rfl, rfl, rfl⟩

/-- A successful single-record batch upsert applies exactly the merge
semantics of the cleaned record. -/
theorem process_movie_batchE_singleton {g g' : GraphState} {raw : RawRecord}
    (h : process_movie_batchE g [raw] = .ok g') :
    g' = applyRecord g (cleanRecord raw) := by
  unfold process_movie_batchE at h
  cases hc : cleanBatchE [raw] with
  | error e => rw [hc] at h; simp at h
  | ok rs =>
    rw [hc] at h
    have hrs : rs = [cleanRecord raw] := by
      unfold cleanBatchE at hc
      cases hcr : cleanRecordE raw with
      | error e => rw [hcr] at hc; simp at hc
      | ok c =>
        rw [hcr] at hc
        simp only [cleanBatchE, Except.ok.injEq] at hc
        rw [← hc, cleanRecordE_ok hcr]
    subst hrs
    by_cases hn : (cleanRecord raw).id = PyVal.vnone
    · simp [hn] at h
    · simp [hn] at h
      rw [← h]
      rfl

/-- Counterexample to C6 as stated: a record whose vote fields are absent
but whose id is also absent (NaN, normalized to null) is not stored at all —
the batch query's `MERGE (m:Movie {id: null})` raises and the transaction
rolls back, so no Movie node with the numeric defaults exists for this
record. -/
theorem c6_counterexample :
    isna (⟨PyVal.vnan, PyVal.vstr "T", PyVal.vnone, PyVal.vnone, PyVal.vnan,
        PyVal.vnan, PyVal.vnan, GVal.scalar PyVal.vnone⟩ : RawRecord).vote_average = true
    ∧ process_movie_batchE emptyStore
        [⟨PyVal.vnan, PyVal.vstr "T", PyVal.vnone, PyVal.vnone, PyVal.vnan,
          PyVal.vnan, PyVal.vnan, GVal.scalar PyVal.vnone⟩]
      = .error "cannot merge node using null property value for id" :=
  ⟨rfl, rfl⟩

/-- C6 (amended): for every record whose batch upsert succeeds, an absent
`vote_average`, `vote_count` or `popularity` cell is normalized to the
explicit absent marker (never left as the NaN sentinel) and the stored
Movie node carries the numeric defaults `0.0`, `0`, `0.0` respectively —
the attribute is stored with the default, not omitted.  A record whose id
is absent is not covered: its batch's `MERGE` raises on the null id and
stores nothing. -/
theorem c6_numeric_defaults_amended (g g' : GraphState) (raw : RawRecord)
    (hok : process_movie_batchE g [raw] = .ok g') :
    ((cleanRecord raw).id, propsOf (cleanRecord raw)) ∈ g'.movies
    ∧ (isna raw.vote_average = true →
        (cleanRecord raw).vote_average = PyVal.vnone
        ∧ (propsOf (cleanRecord raw)).vote_average = PyVal.vfloat 0)
    ∧ (isna raw.vote_count = true →
        (cleanRecord raw).vote_count = PyVal.vnone
        ∧ (propsOf (cleanRecord raw)).vote_count = PyVal.vint 0)
    ∧ (isna raw.popularity = true →
        (cleanRecord raw).popularity = PyVal.vnone
        ∧ (propsOf (cleanRecord raw)).popularity = PyVal.vfloat 0) := by
  have hg' := process_movie_batchE_singleton hok
  refine ⟨?_, fun h => ⟨?_, ?_⟩, fun h => ⟨?_, ?_⟩, fun h => ⟨?_, ?_⟩⟩
  · rw [hg']
    exact mem_upsertMovie_self g.movies (cleanRecord raw).id (propsOf (cleanRecord raw))
  · simp [cleanRecord, cleanVal, h]
  · simp [propsOf, cleanRecord, cleanVal, h]
  · simp [cleanRecord, cleanVal, h]
  · simp [propsOf, cleanRecord, cleanVal, h]
  · simp [cleanRecord, cleanVal, h]
  · simp [propsOf, cleanRecord, cleanVal, h]

/-- Witness for `c6_numeric_defaults_amended` at a record with a non-null
id, all three numeric cells NaN, and a successfully upserted batch. -/
theorem c6_numeric_defaults_amended_witness :
    ((cleanRecord (⟨PyVal.vint 1, PyVal.vstr "T", PyVal.vnone, PyVal.vnone, PyVal.vnan,
        PyVal.vnan, PyVal.vnan, GVal.scalar PyVal.vnone⟩ : RawRecord)).id,
      propsOf (cleanRecord (⟨PyVal.vint 1, PyVal.vstr "T", PyVal.vnone, PyVal.vnone,
        PyVal.vnan, PyVal.vnan, PyVal.vnan, GVal.scalar PyVal.vnone⟩ : RawRecord)))
      ∈ (applyRecord emptyStore (cleanRecord (⟨PyVal.vint 1, PyVal.vstr "T", PyVal.vnone,
          PyVal.vnone, PyVal.vnan, PyVal.vnan, PyVal.vnan,
          GVal.scalar PyVal.vnone⟩ : RawRecord))).movies
    ∧ (propsOf (cleanRecord (⟨PyVal.vint 1, PyVal.vstr "T", PyVal.vnone, PyVal.vnone,
        PyVal.vnan, PyVal.vnan, PyVal.vnan,
        GVal.scalar PyVal.vnone⟩ : RawRecord))).vote_average = PyVal.vfloat 0
    ∧ (propsOf (cleanRecord (⟨PyVal.vint 1, PyVal.vstr "T", PyVal.vnone, PyVal.vnone,
        PyVal.vnan, PyVal.vnan, PyVal.vnan,
        GVal.scalar PyVal.vnone⟩ : RawRecord))).vote_count = PyVal.vint 0
    ∧ (propsOf (cleanRecord (⟨PyVal.vint 1, PyVal.vstr "T", PyVal.vnone, PyVal.vnone,
        PyVal.vnan, PyVal.vnan, PyVal.vnan,
        GVal.scalar PyVal.vnone⟩ : RawRecord))).popularity = PyVal.vfloat 0 :=
  ⟨(c6_numeric_defaults_amended emptyStore
      (applyRecord emptyStore (cleanRecord ⟨PyVal.vint 1, PyVal.vstr "T", PyVal.vnone, PyVal.vnone,
          PyVal.vnan, PyVal.vnan, PyVal.vnan, GVal.scalar PyVal.vnone⟩))
      ⟨PyVal.vint 1, PyVal.vstr "T", PyVal.vnone, PyVal.vnone,
          PyVal.vnan, PyVal.vnan, PyVal.vnan, GVal.scalar PyVal.vnone⟩ rfl).1,
    ((c6_numeric_defaults_amended emptyStore
      (applyRecord emptyStore (cleanRecord ⟨PyVal.vint 1, PyVal.vstr "T", PyVal.vnone, PyVal.vnone,
          PyVal.vnan, PyVal.vnan, PyVal.vnan, GVal.scalar PyVal.vnone⟩))
      ⟨PyVal.vint 1, PyVal.vstr "T", PyVal.vnone, PyVal.vnone,
          PyVal.vnan, PyVal.vnan, PyVal.vnan, GVal.scalar PyVal.vnone⟩ rfl).2.1 (by decide)).2,
    ((c6_numeric_defaults_amended emptyStore
      (applyRecord emptyStore (cleanRecord ⟨PyVal.vint 1, PyVal.vstr "T", PyVal.vnone, PyVal.vnone,
          PyVal.vnan, PyVal.vnan, PyVal.vnan, GVal.scalar PyVal.vnone⟩))
      ⟨PyVal.vint 1, PyVal.vstr "T", PyVal.vnone, PyVal.vnone,
          PyVal.vnan, PyVal.vnan, PyVal.vnan, GVal.scalar PyVal.vnone⟩ rfl).2.2.1 (by decide)).2,
    ((c6_numeric_defaults_amended emptyStore
      (applyRecord emptyStore (cleanRecord ⟨PyVal.vint 1, PyVal.vstr "T", PyVal.vnone, PyVal.vnone,
          PyVal.vnan, PyVal.vnan, PyVal.vnan, GVal.scalar PyVal.vnone⟩))
      ⟨PyVal.vint 1, PyVal.vstr "T", PyVal.vnone, PyVal.vnone,
          PyVal.vnan, PyVal.vnan, PyVal.vnan, GVal.scalar PyVal.vnone⟩ rfl).2.2.2 (by decide)).2⟩

/-- The batch loop of `load_movies` with the failure modes of its two
`_ensure_connection` call sites.  `env idx` gives the upsert outcomes of
batch `idx` as in `loadGo`; `ce idx` is the outcome of the proactive
checkpoint connection check when it is invoked (`none` = returns, `some e`
= raises `e`), and `he idx` the outcome of the connection check made from
the `except` handler.  A raising checkpoint check is caught by the same
`except` handler — the already-applied batch is then retried, harmlessly by
merge idempotence — but a raising handler check propagates out of
`load_movies`, aborting the run with no retry of the failed batch. -/
def loadGoE (env : Nat → Bool × Bool) (ce he : Nat → Option String) :
    Nat → Nat → GraphState → List Ev → List (List RawRecord) →
    Option String × GraphState × Nat × List Ev
  | _, total, g, evts, [] => (none, g, total, evts)
  | idx, total, g, evts, b :: rest =>
    if (env idx).1 then
      if (total + b.length) % 50000 = 0 then
        match ce idx with
        | none =>
          loadGoE env ce he (idx + 1) (total + b.length) (process_movie_batch g b)
            (evts ++ [Ev.batchApplied idx, Ev.progressLogged (total + b.length),
              Ev.checkpointEnsure]) rest
        | some _ =>
          match he idx with
          | some err =>
            (some err, process_movie_batch g b, total + b.length,
              evts ++ [Ev.batchApplied idx, Ev.progressLogged (total + b.length),
                Ev.checkpointEnsureRaised, Ev.errorLogged idx, Ev.errEnsureRaised idx])
          | none =>
            if (env idx).2 then
              loadGoE env ce he (idx + 1) (total + b.length)
                (process_movie_batch (process_movie_batch g b) b)
                (evts ++ [Ev.batchApplied idx, Ev.progressLogged (total + b.length),
                  Ev.checkpointEnsureRaised, Ev.errorLogged idx, Ev.errEnsure idx,
                  Ev.retryApplied idx]) rest
            else
              loadGoE env ce he (idx + 1) (total + b.length) (process_movie_batch g b)
                (evts ++ [Ev.batchApplied idx, Ev.progressLogged (total + b.length),
                  Ev.checkpointEnsureRaised, Ev.errorLogged idx, Ev.errEnsure idx,
                  Ev.retrySkipped idx]) rest
      else
        loadGoE env ce he (idx + 1) (total + b.length) (process_movie_batch g b)
          (evts ++ [Ev.batchApplied idx, Ev.progressLogged (total + b.length)]) rest
    else
      match he idx with
      | some err =>
        (some err, g, total, evts ++ [Ev.errorLogged idx, Ev.errEnsureRaised idx])
      | none =>
        if (env idx).2 then
          loadGoE env ce he (idx + 1) total (process_movie_batch g b)
            (evts ++ [Ev.errorLogged idx, Ev.errEnsure idx, Ev.retryApplied idx]) rest
        else
          loadGoE env ce he (idx + 1) total g
            (evts ++ [Ev.errorLogged idx, Ev.errEnsure idx, Ev.retrySkipped idx]) rest

/-- `load_movies` over the full batch-loop model `loadGoE`. -/
def load_moviesE (pathExists : String → Bool) (csv_path : String)
    (recs : List RawRecord) (env : Nat → Bool × Bool) (ce he : Nat → Option String)
    (g : GraphState) : Option String × GraphState × Nat × List Ev :=
  if pathExists csv_path then
    loadGoE env ce he 0 0 g [Ev.schemaBootstrap] (sliceBatches 40000 recs)
  else
    (some ("CSV file not found: " ++ csv_path), g, 0, [])

/-- On runs in which every connection-recovery call returns, the full model
collapses to `loadGo`: nothing is raised and store, counter and trace
agree. -/
theorem loadGoE_recovery_ok (env : Nat → Bool × Bool) (bs : List (List RawRecord)) :
    ∀ (idx total : Nat) (g : GraphState) (evts : List Ev),
      loadGoE env (fun _ => none) (fun _ => none) idx total g evts bs
        = (none, loadGo env idx total g evts bs) := by
  induction bs with
  | nil => intro idx total g evts; rfl
  | cons b rest ih =>
    intro idx total g evts
    by_cases h1 : (env idx).1
    · by_cases hc : (total + b.length) % 50000 = 0
      · simp [loadGoE, loadGo, h1, hc, ih]
      · simp [loadGoE, loadGo, h1, hc, ih]
    · by_cases h2 : (env idx).2
      · simp [loadGoE, loadGo, h1, h2, ih]
      · simp [loadGoE, loadGo, h1, h2, ih]

/-- The same collapse at the `load_movies` level. -/
theorem load_moviesE_recovery_ok (pe : String → Bool) (path : String)
    (recs : List RawRecord) (env : Nat → Bool × Bool) (g : GraphState) :
    load_moviesE pe path recs env (fun _ => none) (fun _ => none) g
      = load_movies pe path recs env g := by
  unfold load_moviesE load_movies
  by_cases h : pe path
  · simp [h, loadGoE_recovery_ok]
  · simp [h]

/-- On an existing dataset path, the full model runs the schema bootstrap
and the batch loop. -/
theorem load_moviesE_existing_path (path : String) (recs : List RawRecord)
    (env : Nat → Bool × Bool) (ce he : Nat → Option String) (g : GraphState) :
    load_moviesE (fun _ => true) path recs env ce he g
      = loadGoE env ce he 0 0 g [Ev.schemaBootstrap] (sliceBatches 40000 recs) := by
  simp [load_moviesE]

/-- Counterexample to C2 as stated: when the first batch's bulk upsert
raises and the `_ensure_connection` call made from the `except` handler
itself raises (for instance because the unguarded `driver.close()` fails),
`load_movies` propagates that error to the caller and the failed batch is
never retried — the error is logged, but there is no retry event and the
run aborts. -/
theorem c2_counterexample :
    load_moviesE (fun _ => true) "tmdb_movies_2023.csv"
        [⟨PyVal.vint 1, PyVal.vnone, PyVal.vnone, PyVal.vnone, PyVal.vnone, PyVal.vnone,
          PyVal.vnone, GVal.scalar PyVal.vnone⟩]
        (fun _ => (false, true)) (fun _ => none) (fun _ => some "driver close failed")
        emptyStore
      = (some "driver close failed", emptyStore, 0,
         [Ev.schemaBootstrap, Ev.errorLogged 0, Ev.errEnsureRaised 0])
    ∧ (load_moviesE (fun _ => true) "tmdb_movies_2023.csv"
        [⟨PyVal.vint 1, PyVal.vnone, PyVal.vnone, PyVal.vnone, PyVal.vnone, PyVal.vnone,
          PyVal.vnone, GVal.scalar PyVal.vnone⟩]
        (fun _ => (false, true)) (fun _ => none) (fun _ => some "driver close failed")
        emptyStore).2.2.2.countP (isRetryEv 0) = 0 :=
  ⟨rfl, rfl⟩

/-- C2 (amended): for a batch `j` whose first bulk-upsert attempt fails,
provided every connection-recovery call of the run returns, `load_movies`
(1) returns without raising; (2) follows the reference store semantics in
which every batch is applied at most once; (3) emits the consecutive
error-log, `_ensure_connection`, single-retry block for `j`; (4) emits
exactly one retry event for `j`; (5) if the retry succeeds, the final store
equals that of a run in which batch `j` had succeeded outright — fully
applied, no duplicate side effects; and (6) every other first-attempt
successful batch is still applied.  When instead the handler's recovery
call raises (second part, shown for the first batch), its error propagates
to the caller and the failed batch is not retried. -/
theorem c2_failed_batch_retried_once_amended (path : String) (recs : List RawRecord)
    (env : Nat → Bool × Bool) (ce he : Nat → Option String) (g : GraphState) (j : Nat)
    (hfail : (env j).1 = false) :
    ((∀ k, ce k = none) → (∀ k, he k = none) →
      ((load_moviesE (fun _ => true) path recs env ce he g).1 = none
      ∧ (load_moviesE (fun _ => true) path recs env ce he g).2.1
          = applyChunks env 0 g (sliceBatches 40000 recs)
      ∧ (j < (sliceBatches 40000 recs).length →
          ∃ E1 E2, (load_moviesE (fun _ => true) path recs env ce he g).2.2.2
            = E1 ++ [Ev.errorLogged j, Ev.errEnsure j, retryEv env j] ++ E2)
      ∧ ((load_moviesE (fun _ => true) path recs env ce he g).2.2.2.countP (isRetryEv j)
          = if j < (sliceBatches 40000 recs).length then 1 else 0)
      ∧ ((env j).2 = true →
          (load_moviesE (fun _ => true) path recs env ce he g).2.1
            = (load_moviesE (fun _ => true) path recs
                (fun k => if k = j then (true, true) else env k) ce he g).2.1)
      ∧ (∀ k, k < (sliceBatches 40000 recs).length → (env k).1 = true →
          Ev.batchApplied k ∈ (load_moviesE (fun _ => true) path recs env ce he g).2.2.2)))
    ∧ (∀ err, he 0 = some err → 0 < (sliceBatches 40000 recs).length → (env 0).1 = false →
        (load_moviesE (fun _ => true) path recs env ce he g).1 = some err
        ∧ (load_moviesE (fun _ => true) path recs env ce he g).2.2.2.countP
            (isRetryEv 0) = 0) := by
  constructor
  · intro hce hhe
    have hce' : ce = fun _ => none := funext hce
    have hhe' : he = fun _ => none := funext hhe
    subst hce'
    subst hhe'
    simp only [load_moviesE_recovery_ok]
    have hlm : ∀ env' : Nat → Bool × Bool, load_movies (fun _ => true) path recs env' g
        = (none, loadGo env' 0 0 g [Ev.schemaBootstrap] (sliceBatches 40000 recs)) := by
      intro env'
      simp [load_movies]
    refine ⟨?_, ?_, ?_, ?_, ?_, ?_⟩
    · rw [hlm]
    · rw [hlm]
      exact loadGo_graph env (sliceBatches 40000 recs) 0 0 g [Ev.schemaBootstrap]
    · intro hj
      rw [hlm]
      exact loadGo_retry_block env j (sliceBatches 40000 recs) j 0 0 g [Ev.schemaBootstrap]
        (by omega) hj hfail
    · rw [hlm, loadGo_retry_count, retryCountSpec_closed]
      by_cases hj : j < (sliceBatches 40000 recs).length
      · rw [if_pos ⟨Nat.zero_le _, by omega, hfail⟩, if_pos hj]
        simp [List.countP_cons, List.countP_nil, isRetryEv]
      · rw [if_neg ?_, if_neg hj]
        · simp [List.countP_cons, List.countP_nil, isRetryEv]
        · rintro ⟨_, h2, _⟩
          omega
    · intro h2
      rw [hlm, hlm]
      rw [loadGo_graph, loadGo_graph]
      refine applyChunks_congr env _ ?_ _ 0 g
      intro k
      by_cases hk : k = j
      · subst hk
        simp [appliedB, hfail, h2]
      · simp [appliedB, hk]
    · intro k hk hok
      rw [hlm]
      exact loadGo_applied_mem env k (sliceBatches 40000 recs) k 0 0 g [Ev.schemaBootstrap]
        (by omega) hk hok
  · intro err herr hlen hf0
    rw [load_moviesE_existing_path]
    rcases hch : sliceBatches 40000 recs with _ | ⟨b, rest⟩
    · rw [hch] at hlen
      simp at hlen
    · have hstep : loadGoE env ce he 0 0 g [Ev.schemaBootstrap] (b :: rest)
          = (some err, g, 0,
             [Ev.schemaBootstrap, Ev.errorLogged 0, Ev.errEnsureRaised 0]) := by
        simp [loadGoE, hf0, herr]
      rw [hstep]
      refine ⟨rfl, ?_⟩
      simp [List.countP_cons, List.countP_nil, isRetryEv]

/-- Witness for `c2_failed_batch_retried_once_amended`: a one-batch dataset
whose first attempt fails, whose retry succeeds, and whose recovery calls
all return yields exactly one retry event. -/
theorem c2_failed_batch_retried_once_amended_witness :
    (load_moviesE (fun _ => true) "tmdb_movies_2023.csv"
        [⟨PyVal.vint 1, PyVal.vnone, PyVal.vnone, PyVal.vnone, PyVal.vnone, PyVal.vnone,
          PyVal.vnone, GVal.scalar PyVal.vnone⟩]
        (fun _ => (false, true)) (fun _ => none) (fun _ => none)
        emptyStore).2.2.2.countP (isRetryEv 0)
      = if 0 < (sliceBatches 40000
          [(⟨PyVal.vint 1, PyVal.vnone, PyVal.vnone, PyVal.vnone, PyVal.vnone, PyVal.vnone,
            PyVal.vnone, GVal.scalar PyVal.vnone⟩ : RawRecord)]).length then 1 else 0 :=
  (((c2_failed_batch_retried_once_amended "tmdb_movies_2023.csv"
      [⟨PyVal.vint 1, PyVal.vnone, PyVal.vnone, PyVal.vnone, PyVal.vnone, PyVal.vnone,
        PyVal.vnone, GVal.scalar PyVal.vnone⟩]
      (fun _ => (false, true)) (fun _ => none) (fun _ => none) emptyStore 0 rfl).1
    (fun _ => rfl) (fun _ => rfl)).2.2.2.1)
